import Mathlib

/-!
# Verification of the honeypot scam-detection service

Shallow embedding of `honeypot_api.py` (Aanya019-coder/honeypot-scam-detector):
the entity extractor (`SessionManager.update_intelligence`), the intent
classifier (`ScamDetector.detect`), the engagement strategist
(`HoneypotAgent.generate_response`), the reporting call (`send_final_result`),
the session-introspection endpoint (`get_session_status`) and the request
handler (`detect_and_engage`).

Text is modelled as `List Char`.  Python `re` searches are modelled by
executable scanners that reproduce the semantics of the concrete regular
expressions appearing in the source (leftmost non-overlapping `findall`
scans, greedy quantifiers, `\b` word boundaries); each scanner is documented
next to the regex it embeds.  In-place mutation of the per-session dict is
modelled by functional record update with a single store write.  The
`random.choice` reply selection is modelled by an injected index, and the
outbound HTTP POST by an injected sequence of response status codes.
-/

namespace Honeypot

/-- Text is a list of characters. -/
abbrev Str := List Char

/-- Coerce a string literal into the character-list representation. -/
def strL (s : String) : Str := s.data

/-- Python `\w` on the ASCII fragment: letters, digits and underscore. -/
def isWordChar (c : Char) : Bool := c.isAlphanum || c = '_'

/-- Python `\s`: space, tab, newline, carriage return, vertical tab, form feed. -/
def isSpaceChar (c : Char) : Bool :=
  c = ' ' || c = '\t' || c = '\n' || c = '\r' || c = '\x0b' || c = '\x0c'

/-- The character class `[-\s]` used by the grouped-number and phone regexes. -/
def isSep (c : Char) : Bool := c = '-' || isSpaceChar c

/-- Python `str.lower()` on the ASCII fragment. -/
def lowerStr (t : Str) : Str := t.map Char.toLower

/-- Python `str.upper()` on the ASCII fragment. -/
def upperStr (t : Str) : Str := t.map Char.toUpper

/-- Python `w in t` substring membership test. -/
def containsSub (w : Str) : Str → Bool
  | [] => w.isEmpty
  | c :: tl => w.isPrefixOf (c :: tl) || containsSub w tl

/-- Drop everything up to and including the first occurrence of `w`;
`none` when `w` does not occur.  Helper for `.*`-separated regex fragments. -/
def dropThroughFirst (w : Str) : Str → Option Str
  | [] => if w.isEmpty then some [] else none
  | c :: tl =>
    if w.isPrefixOf (c :: tl) then some ((c :: tl).drop w.length)
    else dropThroughFirst w tl

/-- `re.search` semantics for a pattern `w1.*w2.*…*wk` of literal words
separated by `.*` (within one line): each word occurs, in order,
non-overlapping.  Matching each word at its first occurrence is complete
for this existence question. -/
def containsInOrder : List Str → Str → Bool
  | [], _ => true
  | w :: ws, t =>
    match dropThroughFirst w t with
    | some rest => containsInOrder ws rest
    | none => false

/-- All ways of choosing one alternative from each fragment of a pattern
(`(?:a|b).*(?:c|d)` has fragments `[[a,b],[c,d]]`). -/
def choices : List (List Str) → List (List Str)
  | [] => [[]]
  | f :: fs => f.flatMap (fun a => (choices fs).map (fun rest => a :: rest))

/-- A pattern `frag1.*frag2.*…` where each fragment is a disjunction of
literal words (Python `(?:w1|w2|…)`). -/
abbrev Pat := List (List Str)

/-- Split at newline characters: Python `.` (hence `.*`) does not match
`'\n'`, so a `w1.*w2` search succeeds iff some single line contains the
words in order. -/
def splitLines : Str → List Str
  | [] => [[]]
  | c :: tl =>
    if c = '\n' then [] :: splitLines tl
    else
      match splitLines tl with
      | [] => [[c]]
      | l :: ls => (c :: l) :: ls

/-- `re.search(pattern, t)` for a `.*`-separated alternation pattern. -/
def reSearch (p : Pat) (t : Str) : Bool :=
  (splitLines t).any (fun line => (choices p).any (fun seq => containsInOrder seq line))

/-- Python-style first-occurrence deduplication, `list(dict.fromkeys(l))`:
keep the first occurrence of each element, in order. -/
def pyDedup {α : Type _} [DecidableEq α] : List α → List α
  | [] => []
  | x :: xs => x :: pyDedup (xs.filter (fun y => y ≠ x))
termination_by l => l.length
decreasing_by
  simp only [List.length_cons]
  exact Nat.lt_succ_of_le (List.length_filter_le _ _)

theorem mem_pyDedup {α : Type _} [DecidableEq α] {a : α} :
    ∀ {l : List α}, a ∈ pyDedup l ↔ a ∈ l := by
  intro l
  induction l using pyDedup.induct with
  | case1 => simp [pyDedup]
  | case2 x xs ih =>
    rw [pyDedup]
    simp only [List.mem_cons, ih, List.mem_filter]
    constructor
    · rintro (rfl | ⟨h, _⟩)
      · exact Or.inl rfl
      · exact Or.inr h
    · rintro (rfl | h)
      · exact Or.inl rfl
      · by_cases hx : a = x
        · exact Or.inl hx
        · exact Or.inr ⟨h, by simpa using hx⟩

theorem pyDedup_append_of_subset {α : Type _} [DecidableEq α] :
    ∀ (l : List α), ∀ e : List α, (∀ a ∈ e, a ∈ l) →
      pyDedup (l ++ e) = pyDedup l := by
  intro l
  induction l using pyDedup.induct with
  | case1 =>
    intro e h
    have : e = [] := by
      cases e with
      | nil => rfl
      | cons a as => exact absurd (h a (by simp)) (by simp)
    simp [this]
  | case2 x xs ih =>
    intro e h
    rw [List.cons_append, pyDedup, List.filter_append, pyDedup]
    congr 1
    apply ih
    intro a ha
    rw [List.mem_filter] at ha ⊢
    rcases List.mem_cons.mp (h a ha.1) with hx | hmem
    · exact absurd (by simpa using ha.2) (by simp [hx])
    · exact ⟨hmem, ha.2⟩

theorem pyDedup_idem {α : Type _} [DecidableEq α] :
    ∀ (l : List α), pyDedup (pyDedup l) = pyDedup l := by
  intro l
  induction l using pyDedup.induct with
  | case1 => simp [pyDedup]
  | case2 x xs ih =>
    rw [pyDedup, pyDedup]
    congr 1
    have hfix : (pyDedup (xs.filter (fun y => y ≠ x))).filter (fun y => y ≠ x)
        = pyDedup (xs.filter (fun y => y ≠ x)) := by
      rw [List.filter_eq_self]
      intro a ha
      have := mem_pyDedup.mp ha
      rw [List.mem_filter] at this
      exact this.2
    rw [hfix, ih]

/-- Deduplicating after appending already-present material is a no-op:
the key lemma behind extractor idempotence. -/
theorem pyDedup_append_self {α : Type _} [DecidableEq α] (l e : List α) :
    pyDedup (pyDedup (l ++ e) ++ e) = pyDedup (l ++ e) := by
  rw [pyDedup_append_of_subset (pyDedup (l ++ e)) e
    (fun a ha => mem_pyDedup.mpr (List.mem_append_right _ ha))]
  exact pyDedup_idem _

/-- Fuel-indexed version of `pyDedup`, structurally recursive so that the
kernel can evaluate it; with fuel at least the list length it agrees with
`pyDedup` (`pyDedupRun_eq`). -/
def pyDedupF {α : Type _} [DecidableEq α] : ℕ → List α → List α
  | _, [] => []
  | 0, _ :: _ => []
  | fuel + 1, x :: xs => x :: pyDedupF fuel (xs.filter (fun y => y ≠ x))

/-- Executable first-occurrence deduplication, `list(dict.fromkeys(l))`. -/
def pyDedupRun {α : Type _} [DecidableEq α] (l : List α) : List α :=
  pyDedupF l.length l

theorem pyDedupF_eq_pyDedup {α : Type _} [DecidableEq α] :
    ∀ (fuel : ℕ) (l : List α), l.length ≤ fuel → pyDedupF fuel l = pyDedup l := by
  intro fuel
  induction fuel with
  | zero =>
    intro l hl
    rw [List.length_eq_zero.mp (Nat.le_zero.mp hl)]
    simp [pyDedupF, pyDedup]
  | succ fuel ih =>
    intro l hl
    cases l with
    | nil => simp [pyDedupF, pyDedup]
    | cons x xs =>
      rw [pyDedupF, pyDedup]
      rw [ih _ (le_trans (List.length_filter_le _ _) (by simpa using hl))]

theorem pyDedupRun_eq {α : Type _} [DecidableEq α] (l : List α) :
    pyDedupRun l = pyDedup l :=
  pyDedupF_eq_pyDedup l.length l le_rfl

/-! ## Intent classifier (`ScamDetector`) -/

/-- The scam categories; `generic_scam` is the heuristic fallback label. -/
inductive ScamType where
  | bank_fraud
  | upi_fraud
  | phishing
  | fake_offers
  | impersonation
  | otp_fraud
  | generic_scam
deriving DecidableEq, Repr

/-- `ScamDetector.SCAM_PATTERNS`, in the source's dict order.  Each regex
`w1.*(?:a|b|…)` is written as its list of `.*`-separated fragments, each
fragment a list of alternatives. -/
def scamPatternList : List (ScamType × List Pat) :=
  [ (ScamType.bank_fraud,
      [ [[strL "bank account"], [strL "blocked", strL "suspended", strL "frozen"]]
      , [[strL "verify"], [strL "account", strL "identity", strL "details"]]
      , [[strL "account"], [strL "deactivated", strL "locked", strL "closed"]]
      , [[strL "update"], [strL "kyc", strL "pan", strL "aadhar"]]
      , [[strL "unauthorized"], [strL "transaction"]] ])
  , (ScamType.upi_fraud,
      [ [[strL "upi"], [strL "blocked", strL "suspended"]]
      , [[strL "share"], [strL "upi"], [strL "id"]]
      , [[strL "send"], [strL "money"], [strL "verify"]]
      , [[strL "payment"], [strL "pending"]]
      , [[strL "refund"], [strL "upi"]] ])
  , (ScamType.phishing,
      [ [[strL "click"], [strL "link"], [strL "verify", strL "update", strL "confirm"]]
      , [[strL "download"], [strL "app"], [strL "urgently"]]
      , [[strL "install"], [strL "certificate"]]
      , [[strL "login"], [strL "immediately", strL "now", strL "urgent"]]
      , [[strL "reset"], [strL "password"], [strL "click"]] ])
  , (ScamType.fake_offers,
      [ [[strL "congratulations"], [strL "won", strL "winner", strL "prize"]]
      , [[strL "lottery"], [strL "won"]]
      , [[strL "claim"], [strL "prize", strL "reward", strL "gift"]]
      , [[strL "limited"], [strL "time"], [strL "offer"]]
      , [[strL "exclusive"], [strL "deal"], [strL "today"]] ])
  , (ScamType.impersonation,
      [ [[strL "police", strL "court", strL "tax", strL "income tax", strL "gst"],
         [strL "notice", strL "penalty", strL "arrest"]]
      , [[strL "legal"], [strL "action"], [strL "against"]]
      , [[strL "warrant"], [strL "issued"]]
      , [[strL "customs"], [strL "clearance"]]
      , [[strL "government"], [strL "refund", strL "scheme"]] ])
  , (ScamType.otp_fraud,
      [ [[strL "share"], [strL "otp"]]
      , [[strL "send"], [strL "code"], [strL "verification"]]
      , [[strL "otp"], [strL "expire", strL "valid"]]
      , [[strL "confirmation"], [strL "code"]]
      , [[strL "security"], [strL "code"], [strL "verify"]] ]) ]

/-- The pattern loop of `ScamDetector.detect`: first category (in dict
order) with any matching pattern wins. -/
def findCategory (text_lower : Str) : Option ScamType :=
  (scamPatternList.find? (fun cp => cp.2.any (fun p => reSearch p text_lower))).map Prod.fst

/-- `urgency_words` (heuristic vocabulary, weight 2). -/
def urgencyWords : List Str :=
  [strL "urgent", strL "immediately", strL "now", strL "today", strL "asap",
   strL "quickly", strL "hurry", strL "fast", strL "soon", strL "expire",
   strL "limited time"]

/-- `threat_words` (weight 3). -/
def threatWords : List Str :=
  [strL "blocked", strL "suspended", strL "arrested", strL "penalty",
   strL "legal action", strL "freeze", strL "deactivated", strL "locked",
   strL "cancelled", strL "terminated"]

/-- `action_words` (weight 1.5). -/
def actionWords : List Str :=
  [strL "verify", strL "confirm", strL "click", strL "share", strL "send",
   strL "update", strL "provide", strL "submit", strL "enter", strL "transfer"]

/-- `request_words` (weight 2). -/
def requestWords : List Str :=
  [strL "account", strL "password", strL "otp", strL "code", strL "upi",
   strL "card", strL "cvv", strL "pin", strL "aadhar", strL "pan"]

/-- `sum(1 for word in ws if word in t)`: number of vocabulary entries
occurring as substrings. -/
def countPresent (ws : List Str) (t : Str) : ℕ :=
  (ws.filter (fun w => containsSub w t)).length

/-- `re.search(r'https?://|www\.|\w+\.(com|in|org|net|xyz|click|top)', text_lower)`:
the third alternative needs one word character, a dot, and one of the TLD
literals immediately after. -/
def urlTlds : List Str :=
  [strL "com", strL "in", strL "org", strL "net", strL "xyz", strL "click", strL "top"]

def hasWordDotTld : Str → Bool
  | [] => false
  | c :: tl =>
    (isWordChar c && urlTlds.any (fun d => ('.' :: d).isPrefixOf tl)) || hasWordDotTld tl

def hasUrlTok (t : Str) : Bool :=
  containsSub (strL "http://") t || containsSub (strL "https://") t ||
  containsSub (strL "www.") t || hasWordDotTld t

/-- `re.search(r'@(paytm|phonepe|gpay|upi|ybl|oksbi|okaxis|okicici)', text_lower)`. -/
def hasUpiTok (t : Str) : Bool :=
  [strL "@paytm", strL "@phonepe", strL "@gpay", strL "@upi", strL "@ybl",
   strL "@oksbi", strL "@okaxis", strL "@okicici"].any (fun w => containsSub w t)

/-- `re.search(r'\+?\d{10,}', text)`: a run of at least 10 consecutive digits
(the optional leading `+` adds nothing to existence). -/
def hasPhoneTok : Str → Bool
  | [] => false
  | c :: tl =>
    (((c :: tl).take 10).length = 10 && ((c :: tl).take 10).all Char.isDigit) ||
    hasPhoneTok tl

/-- Twice the weighted heuristic score of `ScamDetector.detect` (lines
240-268).  The source computes `urgency*2 + threat*3 + action*1.5 +
request*2` plus flat bonuses 3 (URL), 2 (UPI handle), 1 (10+-digit run) and
compares with the threshold 4; all quantities are halves, so the score is
stored doubled in ℕ (weights 4/6/3/4, bonuses 6/4/2, threshold 8), which is
exact.  `scamScore` below recovers the literal rational score.  The URL/UPI
checks read the lowered text, the phone check the original text, as in the
source. -/
def twiceScamScore (text : Str) : ℕ :=
  let tl := lowerStr text
  countPresent urgencyWords tl * 4 +
  countPresent threatWords tl * 6 +
  countPresent actionWords tl * 3 +
  countPresent requestWords tl * 4 +
  (if hasUrlTok tl then 6 else 0) +
  (if hasUpiTok tl then 4 else 0) +
  (if hasPhoneTok text then 2 else 0)

/-- The source's scam score, as the rational it denotes. -/
def scamScore (text : Str) : ℚ := (twiceScamScore text : ℚ) / 2

/-- `ScamDetector.detect`: pattern-based categories first, then the
heuristic fallback; `scam_score >= 4` is tested as `8 ≤ twiceScamScore`
(see `scamScore_ge_four_iff`). -/
def detect (text : Str) : Bool × Option ScamType :=
  match findCategory (lowerStr text) with
  | some c => (true, some c)
  | none =>
    if 8 ≤ twiceScamScore text then (true, some ScamType.generic_scam)
    else (false, none)

theorem scamScore_ge_four_iff (text : Str) :
    4 ≤ scamScore text ↔ 8 ≤ twiceScamScore text := by
  rw [scamScore, div_le_div_iff_of_pos_right (c := (2 : ℚ)) (by norm_num) |>.symm]
  constructor
  · intro h
    exact_mod_cast (by linarith : (8 : ℚ) ≤ (twiceScamScore text : ℚ))
  · intro h
    have : (8 : ℚ) ≤ (twiceScamScore text : ℚ) := by exact_mod_cast h
    linarith

/-- The doubled score unfolds to exactly the source's weighted formula,
doubled. -/
theorem twiceScamScore_eq (text : Str) :
    (twiceScamScore text : ℚ) =
      2 * ((countPresent urgencyWords (lowerStr text) : ℚ) * 2 +
        (countPresent threatWords (lowerStr text) : ℚ) * 3 +
        (countPresent actionWords (lowerStr text) : ℚ) * (3 / 2) +
        (countPresent requestWords (lowerStr text) : ℚ) * 2 +
        (if hasUrlTok (lowerStr text) then 3 else 0) +
        (if hasUpiTok (lowerStr text) then 2 else 0) +
        (if hasPhoneTok text then 1 else 0)) := by
  rw [twiceScamScore]
  push_cast
  split <;> split <;> split <;> ring

/-- The source's weighted score, written out as in the code. -/
theorem scamScore_formula (text : Str) :
    scamScore text =
      (countPresent urgencyWords (lowerStr text) : ℚ) * 2 +
      (countPresent threatWords (lowerStr text) : ℚ) * 3 +
      (countPresent actionWords (lowerStr text) : ℚ) * (3 / 2) +
      (countPresent requestWords (lowerStr text) : ℚ) * 2 +
      (if hasUrlTok (lowerStr text) then 3 else 0) +
      (if hasUpiTok (lowerStr text) then 2 else 0) +
      (if hasPhoneTok text then 1 else 0) := by
  rw [scamScore, twiceScamScore_eq]
  ring

/-- C4: the classifier returns `(true, bank_fraud)` for
"Your bank account will be blocked today. Verify immediately.",
`(true, fake_offers)` for "Congratulations! You have won a lottery!", and
`(false, none)` for "Hello, how are you today?". -/
theorem claim_C4_classifier_concrete :
    detect (strL "Your bank account will be blocked today. Verify immediately.")
        = (true, some ScamType.bank_fraud) ∧
      detect (strL "Congratulations! You have won a lottery!")
        = (true, some ScamType.fake_offers) ∧
      detect (strL "Hello, how are you today?") = (false, none) :=
  ⟨by decide, by decide, by decide⟩

/-- C5: on any text on which no category-specific pattern matches, the
classifier computes the weighted heuristic score
`urgency*2 + threat*3 + action*1.5 + request*2 (+3 URL) (+2 UPI handle)
(+1 ten-plus-digit run)` and returns `(true, generic_scam)` exactly when
the score is at least 4, `(false, none)` otherwise. -/
theorem claim_C5_heuristic_fallback (text : Str)
    (h : findCategory (lowerStr text) = none) :
    detect text =
      (if 4 ≤ (countPresent urgencyWords (lowerStr text) : ℚ) * 2 +
          (countPresent threatWords (lowerStr text) : ℚ) * 3 +
          (countPresent actionWords (lowerStr text) : ℚ) * (3 / 2) +
          (countPresent requestWords (lowerStr text) : ℚ) * 2 +
          (if hasUrlTok (lowerStr text) then 3 else 0) +
          (if hasUpiTok (lowerStr text) then 2 else 0) +
          (if hasPhoneTok text then 1 else 0)
        then (true, some ScamType.generic_scam) else (false, none)) := by
  rw [← scamScore_formula]
  rw [detect, h]
  by_cases hc : 8 ≤ twiceScamScore text
  · rw [if_pos hc, if_pos ((scamScore_ge_four_iff text).mpr hc)]
  · rw [if_neg hc, if_neg (fun hh => hc ((scamScore_ge_four_iff text).mp hh))]

/-- Witness for C5 at the concrete non-scam greeting. -/
theorem claim_C5_heuristic_fallback_witness :
    detect (strL "Hello, how are you today?") = (false, none) := by
  rw [claim_C5_heuristic_fallback (strL "Hello, how are you today?") (by decide)]
  rw [if_neg]
  rw [← scamScore_formula, scamScore_ge_four_iff]
  decide

/-! ## Entity extractor (`SessionManager.update_intelligence`)

Each `re.findall` is modelled by a left-to-right non-overlapping scan.  A
matcher receives the word-character status of the previous character (for
`\b`) and the remaining text, and returns the matched text and the rest. -/

/-- `\b` after a match whose last character is a word character: the next
character must not be a word character (or the text ends). -/
def boundaryAfter : Str → Bool
  | [] => true
  | c :: _ => !isWordChar c

/-- Exactly `n` characters satisfying `p` (Python `X{n}`). -/
def takeCount (p : Char → Bool) : ℕ → Str → Option (Str × Str)
  | 0, t => some ([], t)
  | _ + 1, [] => none
  | n + 1, c :: rest =>
    if p c then (takeCount p n rest).map (fun g => (c :: g.1, g.2)) else none

theorem takeCount_len {p : Char → Bool} :
    ∀ {n : ℕ} {t g r : Str}, takeCount p n t = some (g, r) →
      r.length + n = t.length := by
  intro n
  induction n with
  | zero =>
    intro t g r h
    simp only [takeCount, Option.some.injEq, Prod.mk.injEq] at h
    simp [← h.2]
  | succ n ih =>
    intro t g r h
    cases t with
    | nil => simp [takeCount] at h
    | cons c rest =>
      rw [takeCount] at h
      by_cases hc : p c
      · rw [if_pos hc, Option.map_eq_some'] at h
        obtain ⟨⟨g', r'⟩, hg, he⟩ := h
        obtain ⟨-, rfl⟩ := Prod.mk.injEq .. ▸ he
        have := ih hg
        simp only [List.length_cons]
        omega
      · simp [if_neg hc] at h

/-- Greedy `[-\s]?` followed by exactly `n` digits.  If a separator is
present but not followed by `n` digits, backtracking to the empty branch
still fails (a separator is not a digit), so the match is deterministic. -/
def sepThenDigits (n : ℕ) (t : Str) : Option (Str × Str) :=
  match t with
  | [] => none
  | c :: rest =>
    if isSep c then (takeCount Char.isDigit n rest).map (fun g => (c :: g.1, g.2))
    else takeCount Char.isDigit n t

theorem sepThenDigits_len {n : ℕ} (hn : 0 < n) {t g r : Str}
    (h : sepThenDigits n t = some (g, r)) : r.length < t.length := by
  cases t with
  | nil => simp [sepThenDigits] at h
  | cons c rest =>
    rw [sepThenDigits] at h
    by_cases hc : isSep c = true
    · rw [if_pos hc, Option.map_eq_some'] at h
      obtain ⟨⟨g', r'⟩, hg, he⟩ := h
      obtain ⟨-, rfl⟩ := Prod.mk.injEq .. ▸ he
      have := takeCount_len hg
      simp only [List.length_cons]
      omega
    · rw [if_neg hc] at h
      have := takeCount_len h
      omega

/-- The body of `\b\d{4}[-\s]?\d{4}[-\s]?\d{4}[-\s]?\d{4}\b` (without the
boundaries): four groups of four digits with optional single separators. -/
def match4444 (t : Str) : Option (Str × Str) :=
  (takeCount Char.isDigit 4 t).bind fun p1 =>
    (sepThenDigits 4 p1.2).bind fun p2 =>
      (sepThenDigits 4 p2.2).bind fun p3 =>
        (sepThenDigits 4 p3.2).bind fun p4 =>
          some (p1.1 ++ p2.1 ++ p3.1 ++ p4.1, p4.2)

theorem match4444_len {t g r : Str} (h : match4444 t = some (g, r)) :
    r.length < t.length := by
  rw [match4444] at h
  simp only [Option.bind_eq_some, Option.some.injEq, Prod.mk.injEq] at h
  obtain ⟨p1, h1, p2, h2, p3, h3, p4, h4, -, rfl⟩ := h
  have l1 := takeCount_len h1
  have l2 := sepThenDigits_len (by norm_num) h2
  have l3 := sepThenDigits_len (by norm_num) h3
  have l4 := sepThenDigits_len (by norm_num) h4
  omega

/-- `re.findall` for a single fixed regex, fuel-indexed: try the matcher at
each position from the left; on a match, emit it and continue after its end
(tracking the word-character status of the last consumed character for
`\b`), otherwise advance one character.  Every matcher consumes at least
one character (the `*_len` lemmas below), so fuel `t.length` suffices. -/
def scanFuel (m : Bool → Str → Option (Str × Str)) : ℕ → Bool → Str → List Str
  | 0, _, _ => []
  | fuel + 1, pw, t =>
    match t with
    | [] => []
    | c :: rest =>
      match m pw (c :: rest) with
      | some (g, r) => g :: scanFuel m fuel (isWordChar (g.getLastD c)) r
      | none => scanFuel m fuel (isWordChar c) rest

def scanRe (m : Bool → Str → Option (Str × Str)) (pw : Bool) (t : Str) : List Str :=
  scanFuel m t.length pw t

/-- With a consuming matcher, any fuel of at least the text length gives
the same scan. -/
theorem scanFuel_fuel (m : Bool → Str → Option (Str × Str))
    (hm : ∀ pw t g r, m pw t = some (g, r) → r.length < t.length) :
    ∀ (fuel₁ fuel₂ : ℕ) (pw : Bool) (t : Str), t.length ≤ fuel₁ →
      t.length ≤ fuel₂ → scanFuel m fuel₁ pw t = scanFuel m fuel₂ pw t := by
  intro fuel₁
  induction fuel₁ with
  | zero =>
    intro fuel₂ pw t h1 _
    rw [List.length_eq_zero.mp (Nat.le_zero.mp h1)]
    cases fuel₂ <;> rfl
  | succ fuel ih =>
    intro fuel₂ pw t h1 h2
    cases t with
    | nil => cases fuel₂ <;> rfl
    | cons c rest =>
      cases fuel₂ with
      | zero => exact absurd h2 (by simp)
      | succ fuel₂ =>
        cases hmc : m pw (c :: rest) with
        | none =>
          rw [scanFuel, scanFuel]
          simp only [hmc]
          exact ih fuel₂ _ rest (by simpa using h1) (by simpa using h2)
        | some p =>
          obtain ⟨g, r⟩ := p
          have hr := hm _ _ _ _ hmc
          rw [scanFuel, scanFuel]
          simp only [hmc]
          simp only [List.length_cons] at h1 h2 hr
          rw [ih fuel₂ _ r (by omega) (by omega)]

/-- The one-step unfolding of `scanRe` for a consuming matcher. -/
theorem scanRe_cons (m : Bool → Str → Option (Str × Str))
    (hm : ∀ pw t g r, m pw t = some (g, r) → r.length < t.length)
    (pw : Bool) (c : Char) (rest : Str) :
    scanRe m pw (c :: rest) =
      match m pw (c :: rest) with
      | some (g, r) => g :: scanRe m (isWordChar (g.getLastD c)) r
      | none => scanRe m (isWordChar c) rest := by
  cases hmc : m pw (c :: rest) with
  | none =>
    rw [scanRe, List.length_cons, scanFuel]
    simp only [hmc]
    rfl
  | some p =>
    obtain ⟨g, r⟩ := p
    have hr := hm _ _ _ _ hmc
    simp only [List.length_cons] at hr
    rw [scanRe, List.length_cons, scanFuel]
    simp only [hmc]
    rw [scanRe]
    rw [scanFuel_fuel m hm rest.length r.length _ r (by omega) le_rfl]

theorem dropWhile_length_le {p : Char → Bool} (t : Str) :
    (t.dropWhile p).length ≤ t.length := by
  have h := congrArg List.length (List.takeWhile_append_dropWhile (p := p) (l := t))
  simp only [List.length_append] at h
  omega

theorem dropWhile_length_lt {p : Char → Bool} {t : Str}
    (h : t.takeWhile p ≠ []) : (t.dropWhile p).length < t.length := by
  cases t with
  | nil => simp [List.takeWhile] at h
  | cons c rest =>
    by_cases hc : p c
    · rw [List.dropWhile_cons_of_pos hc]
      calc (rest.dropWhile p).length ≤ rest.length := dropWhile_length_le rest
        _ < (c :: rest).length := by simp
    · rw [List.takeWhile_cons_of_neg hc] at h
      exact absurd rfl h

/-- Matcher for `\b\d{4}[-\s]?\d{4}[-\s]?\d{4}[-\s]?\d{4}\b` (bank-account
family 1).  The first matched character is a digit, so the opening `\b`
just requires the previous character not to be a word character. -/
def bankGroupedM (pw : Bool) (t : Str) : Option (Str × Str) :=
  if pw then none
  else
    (match4444 t).bind fun p =>
      if boundaryAfter p.2 then some p else none

theorem bankGroupedM_len : ∀ pw t g r,
    bankGroupedM pw t = some (g, r) → r.length < t.length := by
  intro pw t g r h
  rw [bankGroupedM] at h
  by_cases hp : pw
  · simp [hp] at h
  · rw [if_neg hp] at h
    simp only [Option.bind_eq_some] at h
    obtain ⟨p, hm, hif⟩ := h
    obtain ⟨g', r'⟩ := p
    by_cases hb : boundaryAfter r' = true
    · rw [if_pos hb] at hif
      simp only [Option.some.injEq, Prod.mk.injEq] at hif
      obtain ⟨-, rfl⟩ := hif
      exact match4444_len hm
    · simp [hb] at hif

/-- Matcher for `\b\d{9,18}\b` (bank-account family 2): a maximal digit run
of length 9-18 followed by a boundary.  Greedy backtracking cannot shorten
the run (the following character would be a digit, breaking the closing
`\b`), so only the maximal run can match. -/
def bankRunM (pw : Bool) (t : Str) : Option (Str × Str) :=
  if pw then none
  else
    let run := t.takeWhile Char.isDigit
    let rest := t.dropWhile Char.isDigit
    if 9 ≤ run.length ∧ run.length ≤ 18 ∧ boundaryAfter rest = true then some (run, rest)
    else none

theorem bankRunM_len : ∀ pw t g r,
    bankRunM pw t = some (g, r) → r.length < t.length := by
  intro pw t g r h
  rw [bankRunM] at h
  by_cases hp : pw
  · simp [hp] at h
  · rw [if_neg hp] at h
    by_cases hc : 9 ≤ (t.takeWhile Char.isDigit).length ∧
        (t.takeWhile Char.isDigit).length ≤ 18 ∧
        boundaryAfter (t.dropWhile Char.isDigit) = true
    · rw [if_pos hc] at h
      simp only [Option.some.injEq, Prod.mk.injEq] at h
      refine h.2 ▸ dropWhile_length_lt (fun he => ?_)
      rw [he] at hc
      simp at hc
    · simp [if_neg hc] at h

def isUpperAlpha (c : Char) : Bool := 'A' ≤ c && c ≤ 'Z'

def isUpperAlnum (c : Char) : Bool := isUpperAlpha c || c.isDigit

/-- After the four letters of an IFSC code: the literal '0' and six
alphanumerics (tail of `\b[A-Z]{4}0[A-Z0-9]{6}\b`). -/
def ifscTail : Str → Option (Str × Str)
  | '0' :: r2 =>
    (takeCount isUpperAlnum 6 r2).bind fun p =>
      if boundaryAfter p.2 then some ('0' :: p.1, p.2) else none
  | _ => none

theorem ifscTail_len {t g r : Str} (h : ifscTail t = some (g, r)) :
    r.length < t.length := by
  unfold ifscTail at h
  split at h
  next r2 =>
    simp only [Option.bind_eq_some] at h
    obtain ⟨p, h2, hif⟩ := h
    obtain ⟨g2, r3⟩ := p
    by_cases hb : boundaryAfter r3 = true
    · rw [if_pos hb] at hif
      simp only [Option.some.injEq, Prod.mk.injEq] at hif
      obtain ⟨-, rfl⟩ := hif
      have l2 := takeCount_len h2
      simp only [List.length_cons]
      omega
    · simp [hb] at hif
  next => exact absurd h (by simp)

/-- Matcher for `\b[A-Z]{4}0[A-Z0-9]{6}\b` (IFSC codes, bank-account
family 3; applied to the upper-cased text). -/
def ifscM (pw : Bool) (t : Str) : Option (Str × Str) :=
  if pw then none
  else
    (takeCount isUpperAlpha 4 t).bind fun p1 =>
      (ifscTail p1.2).map fun p2 => (p1.1 ++ p2.1, p2.2)

theorem ifscM_len : ∀ pw t g r,
    ifscM pw t = some (g, r) → r.length < t.length := by
  intro pw t g r h
  rw [ifscM] at h
  by_cases hp : pw
  · simp [hp] at h
  · rw [if_neg hp] at h
    simp only [Option.bind_eq_some, Option.map_eq_some'] at h
    obtain ⟨p1, h1, p2, h2, he⟩ := h
    obtain ⟨-, rfl⟩ := Prod.mk.injEq .. ▸ he
    have l1 := takeCount_len (g := p1.1) (r := p1.2) (by simpa using h1)
    have l2 := ifscTail_len (g := p2.1) (r := p2.2) (by simpa using h2)
    omega

/-- The character class `[\w\.-]` of the UPI regexes. -/
def upiClassChar (c : Char) : Bool := isWordChar c || c = '.' || c = '-'

/-- Matcher for `\b[\w\.-]+@handle\b` (applied to the lowered text).
The opening `\b` holds iff exactly one of (previous char, first char) is a
word character; the greedy class run is forced maximal because `@` is not
in the class. -/
def upiM (handle : Str) (pw : Bool) (t : Str) : Option (Str × Str) :=
  match t with
  | [] => none
  | c :: _ =>
    if pw = isWordChar c then none
    else
      if t.takeWhile upiClassChar ≠ [] ∧
          ('@' :: handle).isPrefixOf (t.dropWhile upiClassChar) ∧
          boundaryAfter ((t.dropWhile upiClassChar).drop (handle.length + 1)) = true then
        some (t.takeWhile upiClassChar ++ '@' :: handle,
              (t.dropWhile upiClassChar).drop (handle.length + 1))
      else none

theorem upiM_len (handle : Str) : ∀ pw t g r,
    upiM handle pw t = some (g, r) → r.length < t.length := by
  intro pw t g r h
  cases t with
  | nil => simp [upiM] at h
  | cons c tl =>
    rw [upiM] at h
    by_cases hw : pw = isWordChar c
    · simp [hw] at h
    · rw [if_neg hw] at h
      split at h
      next hc =>
        simp only [Option.some.injEq, Prod.mk.injEq] at h
        obtain ⟨-, rfl⟩ := h
        calc (((c :: tl).dropWhile upiClassChar).drop (handle.length + 1)).length
            ≤ ((c :: tl).dropWhile upiClassChar).length := by
              simpa using List.length_drop_le _ _
          _ < (c :: tl).length := dropWhile_length_lt hc.1
      next => exact absurd h (by simp)

/-- After a matched literal of length `n` (a URL scheme or `www.`): the
greedy nonempty `[^\s]+`; the match is the literal plus the run. -/
def schemeTail (n : ℕ) (t : Str) : Option (Str × Str) :=
  if (t.drop n).takeWhile (fun c => !isSpaceChar c) = [] then none
  else some (t.take n ++ (t.drop n).takeWhile (fun c => !isSpaceChar c),
             (t.drop n).dropWhile (fun c => !isSpaceChar c))

theorem schemeTail_len {n : ℕ} {t g r : Str} (h : schemeTail n t = some (g, r)) :
    r.length < t.length := by
  rw [schemeTail] at h
  split at h
  next => exact absurd h (by simp)
  next h2 =>
    simp only [Option.some.injEq, Prod.mk.injEq] at h
    obtain ⟨-, rfl⟩ := h
    calc ((t.drop n).dropWhile (fun c => !isSpaceChar c)).length
        < (t.drop n).length := dropWhile_length_lt h2
      _ ≤ t.length := by simpa using List.length_drop_le _ _

/-- Matcher for `https?://[^\s]+` (no word boundaries; the optional `s` is
deterministic because when `://` fails after `s` the empty branch also
fails). -/
def httpM (_ : Bool) (t : Str) : Option (Str × Str) :=
  if (strL "https://").isPrefixOf t then schemeTail 8 t
  else if (strL "http://").isPrefixOf t then schemeTail 7 t
  else none

theorem httpM_len : ∀ pw t g r, httpM pw t = some (g, r) → r.length < t.length := by
  intro pw t g r h
  rw [httpM] at h
  split at h
  · exact schemeTail_len h
  · split at h
    · exact schemeTail_len h
    · exact absurd h (by simp)

/-- Matcher for `www\.[^\s]+` (no word boundaries). -/
def wwwM (_ : Bool) (t : Str) : Option (Str × Str) :=
  if (strL "www.").isPrefixOf t then schemeTail 4 t else none

theorem wwwM_len : ∀ pw t g r, wwwM pw t = some (g, r) → r.length < t.length := by
  intro pw t g r h
  rw [wwwM] at h
  split at h
  · exact schemeTail_len h
  · exact absurd h (by simp)

/-- The character class `[\w-]` of the bare-domain regex. -/
def domainClassChar (c : Char) : Bool := isWordChar c || c = '-'

/-- The TLD alternatives of the bare-domain regex
`\b[\w-]+\.(?:com|in|org|net|co\.in|xyz|click|top|online|site|info|biz)[^\s]*`. -/
def linkTlds : List Str :=
  [strL "com", strL "in", strL "org", strL "net", strL "co.in", strL "xyz",
   strL "click", strL "top", strL "online", strL "site", strL "info", strL "biz"]

/-- Matcher for the bare-domain regex.  When the structural parse (class
run, dot, TLD alternative) succeeds, the full match is the maximal
non-whitespace run from the start, because every structural part is
non-whitespace and the trailing `[^\s]*` is greedy. -/
def domainM (pw : Bool) (t : Str) : Option (Str × Str) :=
  match t with
  | [] => none
  | c :: _ =>
    if pw = isWordChar c then none
    else if domainClassChar c &&
        (match t.dropWhile domainClassChar with
         | '.' :: r2 => linkTlds.any (fun d => d.isPrefixOf r2)
         | _ => false) then
      some (t.takeWhile (fun ch => !isSpaceChar ch),
            t.dropWhile (fun ch => !isSpaceChar ch))
    else none

theorem space_not_wordChar {c : Char} (hs : isSpaceChar c = true) :
    isWordChar c = false := by
  have hc : c ∈ [' ', '\t', '\n', '\r', '\x0b', '\x0c'] := by
    simpa [isSpaceChar, or_assoc, List.mem_cons] using hs
  fin_cases hc <;> decide

theorem domainClass_not_space {c : Char} (h : domainClassChar c = true) :
    isSpaceChar c = false := by
  cases hsp : isSpaceChar c
  · rfl
  · rw [domainClassChar, space_not_wordChar hsp] at h
    simp only [Bool.false_or, decide_eq_true_eq] at h
    subst h
    exact absurd hsp (by decide)

theorem domainM_len : ∀ pw t g r,
    domainM pw t = some (g, r) → r.length < t.length := by
  intro pw t g r h
  cases t with
  | nil => simp [domainM] at h
  | cons c tl =>
    rw [domainM] at h
    by_cases hw : pw = isWordChar c
    · simp [hw] at h
    · rw [if_neg hw] at h
      split at h
      next hcond =>
        simp only [Option.some.injEq, Prod.mk.injEq] at h
        obtain ⟨-, rfl⟩ := h
        apply dropWhile_length_lt
        simp only [Bool.and_eq_true] at hcond
        rw [List.takeWhile_cons_of_pos (by simp [domainClass_not_space hcond.1])]
        simp
      next => exact absurd h (by simp)

/-- Matcher for `\+91[-\s]?\d{10}` (no word boundaries). -/
def plus91M (_ : Bool) (t : Str) : Option (Str × Str) :=
  match t with
  | '+' :: '9' :: '1' :: r =>
    (sepThenDigits 10 r).map (fun g => ('+' :: '9' :: '1' :: g.1, g.2))
  | _ => none

theorem plus91M_len : ∀ pw t g r,
    plus91M pw t = some (g, r) → r.length < t.length := by
  intro pw t g r h
  unfold plus91M at h
  split at h
  next r0 =>
    rw [Option.map_eq_some'] at h
    obtain ⟨p, hp, he⟩ := h
    obtain ⟨-, rfl⟩ := Prod.mk.injEq .. ▸ he
    have := sepThenDigits_len (n := 10) (by norm_num) (g := p.1) (r := p.2)
      (by simpa using hp)
    simp only [List.length_cons]
    omega
  next => exact absurd h (by simp)

/-- Greedy `\d{1,4}` (from 4 down to 1) followed by `[-\s]?\d{10}`, the body
of the international phone regex after the `+`. -/
def intlTryK : ℕ → Str → Option (Str × Str)
  | 0, _ => none
  | k + 1, r =>
    match (takeCount Char.isDigit (k + 1) r).bind (fun p1 =>
        (sepThenDigits 10 p1.2).map (fun p2 => (p1.1 ++ p2.1, p2.2))) with
    | some p => some p
    | none => intlTryK k r

theorem intlTryK_len : ∀ k r g rest,
    intlTryK k r = some (g, rest) → rest.length < r.length := by
  intro k
  induction k with
  | zero => intro r g rest h; simp [intlTryK] at h
  | succ k ih =>
    intro r g rest h
    rw [intlTryK] at h
    split at h
    next p hp =>
      simp only [Option.some.injEq] at h
      subst h
      simp only [Option.bind_eq_some, Option.map_eq_some'] at hp
      obtain ⟨p1, h1, p2, h2, he⟩ := hp
      obtain ⟨-, rfl⟩ := Prod.mk.injEq .. ▸ he
      have l1 := takeCount_len (g := p1.1) (r := p1.2) (by simpa using h1)
      have l2 := sepThenDigits_len (n := 10) (by norm_num) (g := p2.1) (r := p2.2)
        (by simpa using h2)
      omega
    next => exact ih _ _ _ h

/-- Matcher for `\+\d{1,4}[-\s]?\d{10}` (no word boundaries). -/
def intlM (_ : Bool) (t : Str) : Option (Str × Str) :=
  match t with
  | '+' :: r => (intlTryK 4 r).map (fun g => ('+' :: g.1, g.2))
  | _ => none

theorem intlM_len : ∀ pw t g r,
    intlM pw t = some (g, r) → r.length < t.length := by
  intro pw t g r h
  unfold intlM at h
  split at h
  next r0 =>
    rw [Option.map_eq_some'] at h
    obtain ⟨p, hp, he⟩ := h
    obtain ⟨-, rfl⟩ := Prod.mk.injEq .. ▸ he
    have := intlTryK_len 4 r0 p.1 p.2 (by simpa using hp)
    simp only [List.length_cons]
    omega
  next => exact absurd h (by simp)

/-- Matcher for `\b\d{10}\b`: exactly ten digits between word boundaries
(greedy backtracking cannot help: a longer digit run leaves a digit after
the ten, breaking the closing `\b`). -/
def bare10M (pw : Bool) (t : Str) : Option (Str × Str) :=
  if pw then none
  else
    (takeCount Char.isDigit 10 t).bind fun p =>
      if boundaryAfter p.2 then some p else none

theorem bare10M_len : ∀ pw t g r,
    bare10M pw t = some (g, r) → r.length < t.length := by
  intro pw t g r h
  rw [bare10M] at h
  by_cases hp : pw
  · simp [hp] at h
  · rw [if_neg hp] at h
    simp only [Option.bind_eq_some] at h
    obtain ⟨p, hm, hif⟩ := h
    split at hif
    · simp only [Option.some.injEq] at hif
      subst hif
      have := takeCount_len (g := g) (r := r) (by simpa using hm)
      omega
    · exact absurd hif (by simp)

/-- Matcher for `\b0\d{10}\b` (numbers starting with 0). -/
def zero11M (pw : Bool) (t : Str) : Option (Str × Str) :=
  if pw then none
  else
    match t with
    | c :: r =>
      if c = '0' then
        (takeCount Char.isDigit 10 r).bind fun p =>
          if boundaryAfter p.2 then some (c :: p.1, p.2) else none
      else none
    | [] => none

theorem zero11M_len : ∀ pw t g r,
    zero11M pw t = some (g, r) → r.length < t.length := by
  intro pw t g r h
  rw [zero11M.eq_def] at h
  by_cases hp : pw
  · simp [hp] at h
  · rw [if_neg hp] at h
    cases t with
    | nil => exact absurd h (by simp)
    | cons c r0 =>
      dsimp only at h
      by_cases hc : c = '0'
      · rw [if_pos hc] at h
        simp only [Option.bind_eq_some] at h
        obtain ⟨p, hm, hif⟩ := h
        split at hif
        · simp only [Option.some.injEq, Prod.mk.injEq] at hif
          obtain ⟨-, rfl⟩ := hif
          have := takeCount_len (g := p.1) (r := p.2) (by simpa using hm)
          simp only [List.length_cons]
          omega
        · exact absurd hif (by simp)
      · rw [if_neg hc] at h
        exact absurd h (by simp)

/-! ### The extraction functions of `update_intelligence` -/

/-- Bank-account extraction (lines 108-115): the three findall families
concatenated, then `.replace(" ", "").replace("-", "")` on each result. -/
def extractBankAccounts (text : Str) : List Str :=
  ((scanRe bankGroupedM false text ++ scanRe bankRunM false text) ++
    scanRe ifscM false (upperStr text)).map
      (fun acc => acc.filter (fun c => !(c = ' ' || c = '-')))

/-- The twelve UPI handle suffixes of `upi_patterns`, in source order. -/
def upiHandles : List Str :=
  [strL "paytm", strL "phonepe", strL "gpay", strL "upi", strL "ybl",
   strL "oksbi", strL "okaxis", strL "okicici", strL "okhdfcbank",
   strL "okbizaxis", strL "ibl", strL "axl"]

/-- UPI-id extraction (lines 117-134): one findall per handle over the
lowered text, results concatenated in handle order. -/
def extractUpiIds (text : Str) : List Str :=
  upiHandles.flatMap (fun h => scanRe (upiM h) false (lowerStr text))

/-- Link extraction (lines 136-141): `http(s)://` URLs, `www.` tokens and
bare domains, in source order, over the original (case-sensitive) text. -/
def extractLinks (text : Str) : List Str :=
  (scanRe httpM false text ++ scanRe wwwM false text) ++
    scanRe domainM false text

/-- Phone-number extraction (lines 143-148): the four findall families in
source order. -/
def extractPhones (text : Str) : List Str :=
  ((scanRe plus91M false text ++ scanRe intlM false text) ++
    scanRe bare10M false text) ++
    scanRe zero11M false text

/-- `suspicious_words` (lines 151-162), in source order. -/
def suspiciousWords : List Str :=
  [strL "urgent", strL "verify", strL "blocked", strL "suspended",
   strL "immediately", strL "confirm",
   strL "account", strL "bank", strL "upi", strL "payment", strL "transfer",
   strL "otp", strL "password",
   strL "click here", strL "limited time", strL "act now", strL "prize",
   strL "winner", strL "congratulations",
   strL "refund", strL "tax", strL "penalty", strL "arrest",
   strL "legal action", strL "freeze",
   strL "kyc", strL "update", strL "expired", strL "deactivated",
   strL "unauthorized", strL "suspicious",
   strL "claim", strL "reward", strL "lottery", strL "won", strL "cashback",
   strL "offer", strL "deal",
   strL "hurry", strL "last chance", strL "final notice", strL "warrant",
   strL "court", strL "police",
   strL "customs", strL "delivery", strL "parcel", strL "package",
   strL "courier", strL "fedex", strL "dhl",
   strL "amazon", strL "flipkart", strL "security", strL "code", strL "pin",
   strL "cvv", strL "card",
   strL "government", strL "official", strL "department", strL "notice",
   strL "billing", strL "invoice"]

/-- Suspicious-keyword extraction (lines 164-165): vocabulary entries that
occur as substrings of the lowered text, in vocabulary order. -/
def extractKeywords (text : Str) : List Str :=
  suspiciousWords.filter (fun w => containsSub w (lowerStr text))

/-! ## Session data model (`SessionManager`) -/

/-- `ExtractedIntelligence`: the five accumulated, deduplicated lists. -/
structure Intelligence where
  bankAccounts : List Str
  upiIds : List Str
  phishingLinks : List Str
  phoneNumbers : List Str
  suspiciousKeywords : List Str
deriving DecidableEq, Repr

def Intelligence.empty : Intelligence := ⟨[], [], [], [], []⟩

/-- A conversation message. -/
structure Message where
  sender : Str
  text : Str
  timestamp : ℤ
deriving DecidableEq, Repr

/-- One session record, as created by `SessionManager.get_session`.  The
`final_result_sent` key is absent until first set and read with
`.get("final_result_sent", False)`, so it is modelled as a Bool defaulting
to `false`. -/
structure Session where
  messages : List Message
  intelligence : Intelligence
  scam_detected : Bool
  engagement_count : ℕ
  should_continue : Bool
  scam_type : Option ScamType
  final_result_sent : Bool
deriving DecidableEq, Repr

/-- The fresh session created on first reference to an unseen id. -/
def freshSession : Session :=
  { messages := []
    intelligence := Intelligence.empty
    scam_detected := false
    engagement_count := 0
    should_continue := true
    scam_type := none
    final_result_sent := false }

/-- `SessionManager.update_intelligence`: extend each list with the new
extraction and deduplicate preserving first-seen order
(`list(dict.fromkeys(...))`). -/
def updateIntelligence (s : Session) (text : Str) : Session :=
  { s with intelligence :=
    { bankAccounts := pyDedupRun (s.intelligence.bankAccounts ++ extractBankAccounts text)
      upiIds := pyDedupRun (s.intelligence.upiIds ++ extractUpiIds text)
      phishingLinks := pyDedupRun (s.intelligence.phishingLinks ++ extractLinks text)
      phoneNumbers := pyDedupRun (s.intelligence.phoneNumbers ++ extractPhones text)
      suspiciousKeywords :=
        pyDedupRun (s.intelligence.suspiciousKeywords ++ extractKeywords text) } }

/-- C7: the extract-and-merge operation is idempotent w.r.t. session
deduplication: applying `update_intelligence` twice with the same text
yields the same five intelligence lists (same elements, same first-seen
order) as applying it once. -/
theorem claim_C7_extractor_idempotent (s : Session) (text : Str) :
    (updateIntelligence (updateIntelligence s text) text).intelligence =
      (updateIntelligence s text).intelligence := by
  simp only [updateIntelligence, pyDedupRun_eq]
  congr 1 <;> exact pyDedup_append_self _ _

/-! ### C6: the 4-4-4-4 grouped-numeral claim -/

theorem takeCount_none_of_head {p : Char → Bool} {n : ℕ} {c : Char} {rest : Str}
    (h : p c = false) : takeCount p (n + 1) (c :: rest) = none := by
  simp [takeCount, h]

theorem bankGroupedM_none {pw : Bool} {c : Char} {rest : Str}
    (h : c.isDigit = false) : bankGroupedM pw (c :: rest) = none := by
  rw [bankGroupedM]
  by_cases hp : pw
  · simp [hp]
  · rw [if_neg hp, match4444, takeCount_none_of_head h]
    rfl

/-- Scanning the 16-digit pattern through a digit-free prefix finds
nothing there; the scan resumes with the word-character status of the
prefix's last character. -/
theorem scanRe_bankGrouped_append : ∀ (pre : Str) (pw : Bool) (t : Str),
    pre.all (fun ch => !ch.isDigit) = true →
    scanRe bankGroupedM pw (pre ++ t) =
      scanRe bankGroupedM (pre.foldl (fun _ ch => isWordChar ch) pw) t := by
  intro pre
  induction pre with
  | nil => intro pw t _; rfl
  | cons c pre ih =>
    intro pw t hall
    simp only [List.all_cons, Bool.and_eq_true] at hall
    rw [List.cons_append, scanRe_cons bankGroupedM bankGroupedM_len,
      bankGroupedM_none (by simpa using hall.1)]
    rw [List.foldl_cons]
    exact ih (isWordChar c) t hall.2

theorem foldl_isWordChar : ∀ (pre : Str) (x : Char),
    pre.foldl (fun _ ch => isWordChar ch) (isWordChar x) =
      isWordChar (pre.getLastD x) := by
  intro pre
  induction pre with
  | nil => intro x; rfl
  | cons c l ih =>
    intro x
    rw [List.foldl_cons, List.getLastD_cons]
    exact ih c

theorem takeCount_exact {p : Char → Bool} : ∀ {l : Str} {n : ℕ}, l.length = n →
    l.all p = true → ∀ rest, takeCount p n (l ++ rest) = some (l, rest) := by
  intro l
  induction l with
  | nil =>
    intro n h _ rest
    subst h
    rfl
  | cons c l ih =>
    intro n h hall rest
    cases n with
    | zero => simp at h
    | succ n =>
      simp only [List.all_cons, Bool.and_eq_true] at hall
      rw [List.cons_append, takeCount, if_pos hall.1,
        ih (by simpa using h) hall.2 rest]
      rfl

/-- `match4444` at a well-formed grouped numeral consumes exactly the
numeral. -/
theorem match4444_grouped (a b c d : Str) (s1 s2 s3 : Char) (suf : Str)
    (ha : a.length = 4) (had : a.all Char.isDigit = true)
    (hb : b.length = 4) (hbd : b.all Char.isDigit = true)
    (hc : c.length = 4) (hcd : c.all Char.isDigit = true)
    (hd : d.length = 4) (hdd : d.all Char.isDigit = true)
    (hs1 : s1 = '-' ∨ s1 = ' ') (hs2 : s2 = '-' ∨ s2 = ' ')
    (hs3 : s3 = '-' ∨ s3 = ' ') :
    match4444 ((a ++ s1 :: (b ++ s2 :: (c ++ s3 :: d))) ++ suf) =
      some (a ++ s1 :: (b ++ s2 :: (c ++ s3 :: d)), suf) := by
  have hsep1 : isSep s1 = true := by rcases hs1 with rfl | rfl <;> decide
  have hsep2 : isSep s2 = true := by rcases hs2 with rfl | rfl <;> decide
  have hsep3 : isSep s3 = true := by rcases hs3 with rfl | rfl <;> decide
  rw [match4444]
  simp only [List.append_assoc, List.cons_append]
  rw [takeCount_exact ha had]
  simp only [Option.some_bind]
  rw [sepThenDigits, if_pos hsep1, takeCount_exact hb hbd]
  simp only [Option.map_some', Option.some_bind]
  rw [sepThenDigits, if_pos hsep2, takeCount_exact hc hcd]
  simp only [Option.map_some', Option.some_bind]
  rw [sepThenDigits, if_pos hsep3, takeCount_exact hd hdd]
  simp only [Option.map_some', Option.some_bind, Option.some.injEq,
    Prod.mk.injEq, List.append_assoc, List.cons_append]

/-- A match at the very first position is among the findall results. -/
theorem scanRe_head_mem (m : Bool → Str → Option (Str × Str))
    (hm : ∀ pw t g r, m pw t = some (g, r) → r.length < t.length)
    {pw : Bool} {t g r : Str} (h : m pw t = some (g, r)) : g ∈ scanRe m pw t := by
  cases t with
  | nil => exact absurd (hm _ _ _ _ h) (by simp)
  | cons c rest =>
    rw [scanRe_cons m hm, h]
    exact List.mem_cons_self _ _

theorem digit_filter_keep {x : Char} (hx : x.isDigit = true) :
    (!(x = ' ' || x = '-')) = true := by
  by_cases h1 : x = ' '
  · subst h1; exact absurd hx (by decide)
  · by_cases h2 : x = '-'
    · subst h2; exact absurd hx (by decide)
    · simp [h1, h2]

/-- C6 as stated is false on the code: for the text
"1234 4111-2222-3333-4444", which contains the grouped numeral
"4111-2222-3333-4444", the stripped string "4111222233334444" is NOT in
the bank-account set — `re.findall`'s left-to-right non-overlapping scan
consumes "1234 4111-2222-3333" first. -/
theorem claim_C6_counterexample :
    containsSub (strL "4111-2222-3333-4444") (strL "1234 4111-2222-3333-4444") = true ∧
      strL "4111222233334444" ∉
        (updateIntelligence freshSession
          (strL "1234 4111-2222-3333-4444")).intelligence.bankAccounts :=
  ⟨by decide, by decide⟩

/-- C6 amended: for every text of the form `pre ++ numeral ++ suf` where
the numeral is a 4-4-4-4 grouped 16-digit numeral with hyphen or space
separators, `pre` contains no digits and ends in a non-word character (or
is empty), and `suf` starts with a non-word character (or is empty),
running the extractor puts the separator-stripped 16-digit string into the
session's bank-account set. -/
theorem claim_C6_amended (s : Session) (pre suf a b c d : Str) (s1 s2 s3 : Char)
    (ha : a.length = 4) (had : a.all Char.isDigit = true)
    (hb : b.length = 4) (hbd : b.all Char.isDigit = true)
    (hc : c.length = 4) (hcd : c.all Char.isDigit = true)
    (hd : d.length = 4) (hdd : d.all Char.isDigit = true)
    (hs1 : s1 = '-' ∨ s1 = ' ') (hs2 : s2 = '-' ∨ s2 = ' ')
    (hs3 : s3 = '-' ∨ s3 = ' ')
    (hpre : pre.all (fun ch => !ch.isDigit) = true)
    (hpwb : isWordChar (pre.getLastD ' ') = false)
    (hsufb : boundaryAfter suf = true) :
    a ++ b ++ c ++ d ∈
      (updateIntelligence s
        (pre ++ (a ++ s1 :: (b ++ s2 :: (c ++ s3 :: d))) ++ suf)).intelligence.bankAccounts := by
  set g : Str := a ++ s1 :: (b ++ s2 :: (c ++ s3 :: d)) with hg
  have hmatch : bankGroupedM false (g ++ suf) = some (g, suf) := by
    rw [bankGroupedM, if_neg (by simp), hg,
      match4444_grouped a b c d s1 s2 s3 suf ha had hb hbd hc hcd hd hdd hs1 hs2 hs3]
    simp [hsufb]
  have hmem : g ∈ scanRe bankGroupedM false ((pre ++ g) ++ suf) := by
    rw [List.append_assoc]
    rw [scanRe_bankGrouped_append pre false (g ++ suf) hpre]
    rw [show (false : Bool) = isWordChar ' ' from by decide, foldl_isWordChar, hpwb]
    exact scanRe_head_mem bankGroupedM bankGroupedM_len hmatch
  have hstrip : g.filter (fun ch => !(ch = ' ' || ch = '-')) = a ++ b ++ c ++ d := by
    have hfa : ∀ (l : Str), l.all Char.isDigit = true →
        l.filter (fun ch => !(ch = ' ' || ch = '-')) = l := by
      intro l hl
      rw [List.filter_eq_self]
      intro x hx
      exact digit_filter_keep (by
        rw [List.all_eq_true] at hl
        simpa using hl x hx)
    have hns1 : (!(s1 = ' ' || s1 = '-')) = false := by rcases hs1 with rfl | rfl <;> decide
    have hns2 : (!(s2 = ' ' || s2 = '-')) = false := by rcases hs2 with rfl | rfl <;> decide
    have hns3 : (!(s3 = ' ' || s3 = '-')) = false := by rcases hs3 with rfl | rfl <;> decide
    rw [hg]
    simp only [List.filter_append, List.filter_cons, hns1, hns2, hns3,
      Bool.false_eq_true, if_false, hfa a had, hfa b hbd, hfa c hcd, hfa d hdd,
      List.append_assoc]
  have hextract : a ++ b ++ c ++ d ∈
      extractBankAccounts ((pre ++ g) ++ suf) := by
    rw [extractBankAccounts, ← hstrip]
    exact List.mem_map_of_mem _ (List.mem_append_left _ (List.mem_append_left _ hmem))
  rw [updateIntelligence]
  simp only [pyDedupRun_eq]
  exact mem_pyDedup.mpr (List.mem_append_right _ hextract)

/-- Witness for the amended C6 at the concrete grouped numeral. -/
theorem claim_C6_amended_witness :
    strL "4111222233334444" ∈
      (updateIntelligence freshSession
        (strL "4111-2222-3333-4444")).intelligence.bankAccounts := by
  have h := claim_C6_amended freshSession [] [] (strL "4111") (strL "2222")
    (strL "3333") (strL "4444") '-' '-' '-'
    (by decide) (by decide) (by decide) (by decide) (by decide) (by decide)
    (by decide) (by decide) (Or.inl rfl) (Or.inl rfl) (Or.inl rfl)
    (by decide) (by decide) (by decide)
  exact h

/-! ## Engagement strategist (`HoneypotAgent`) -/

/-- Persona selection (`generate_response`, lines 297-305); computed but
not used in reply-pool branching, as in the source. -/
def personaKey (scam_type : Option ScamType) (engagement_count : ℕ) : Str :=
  if scam_type = some ScamType.bank_fraud ∨ scam_type = some ScamType.upi_fraud then
    (if engagement_count < 3 then strL "concerned_elderly" else strL "cautious_user")
  else if scam_type = some ScamType.fake_offers then strL "trusting_user"
  else strL "busy_professional"

/-- `_build_context`: the last three history messages plus the current one. -/
def buildContext (history : List Message) (current : Str) : Str :=
  ((history.drop (history.length - 3)).foldl
    (fun ctx msg => ctx ++ msg.sender ++ strL ": " ++ msg.text ++ strL "\n") []) ++
    strL "scammer: " ++ current ++ strL "\n"

/-- The `responses` dict of `_generate_initial_response`; `generic_scam` is
not a key, so `responses.get(scam_type, responses['bank_fraud'])` falls
back to the bank-fraud pool for it. -/
def initialResponsesFor : ScamType → List Str
  | ScamType.bank_fraud =>
    [strL "Oh no! Why will my account be blocked? I haven't done anything wrong.",
     strL "What? Is this a message from my bank? I'm worried now.",
     strL "I don't understand. Can you explain what's happening with my account?"]
  | ScamType.upi_fraud =>
    [strL "My UPI is blocked? But I just used it yesterday. What happened?",
     strL "Is this from my bank? I need to use UPI for payments.",
     strL "Why would my UPI be suspended? Please tell me what to do."]
  | ScamType.phishing =>
    [strL "I got your message. Is this urgent? Should I click the link now?",
     strL "What kind of verification is this? I want to make sure it's safe.",
     strL "Ok, but can you tell me more about what I need to do?"]
  | ScamType.fake_offers =>
    [strL "Really? I won something? What prize is this?",
     strL "This sounds great! How do I claim it?",
     strL "Wow, I didn't know I entered any lottery. What do I need to do?"]
  | ScamType.impersonation =>
    [strL "Legal notice? What have I done wrong? I'm scared.",
     strL "Is this really from the government? What should I do?",
     strL "I don't want any legal trouble. Please help me understand."]
  | ScamType.otp_fraud =>
    [strL "OTP? I just received one. Is this related to my account?",
     strL "Should I share the code? I'm not sure what this is for.",
     strL "I got a code but I didn't request anything. What's going on?"]
  | ScamType.generic_scam =>
    [strL "Oh no! Why will my account be blocked? I haven't done anything wrong.",
     strL "What? Is this a message from my bank? I'm worried now.",
     strL "I don't understand. Can you explain what's happening with my account?"]

/-- `scam_type` is the session's stored value, `None` before detection;
`responses.get(None, responses['bank_fraud'])` also falls back. -/
def initialResponses (scam_type : Option ScamType) : List Str :=
  match scam_type with
  | some c => initialResponsesFor c
  | none => initialResponsesFor ScamType.bank_fraud

/-- `_generate_probing_response`: topic-keyword chain over the lowered
incoming message, in source order. -/
def probingResponses (message : Str) : List Str :=
  let ml := lowerStr message
  if containsSub (strL "account") ml || containsSub (strL "number") ml then
    [strL "Which account number do you need? I have multiple accounts.",
     strL "Should I share my savings account or current account number?",
     strL "I have accounts in different banks. Which one are you asking about?"]
  else if containsSub (strL "upi") ml then
    [strL "What UPI ID exactly? I have different ones for different apps.",
     strL "I use multiple UPI apps. Which one should I share - PhonePe, GPay, or Paytm?",
     strL "My UPI ID is linked to many apps. Can you specify which one?"]
  else if containsSub (strL "click") ml || containsSub (strL "link") ml then
    [strL "I'm trying to click but the link doesn't work. Can you send it again?",
     strL "The link is not opening on my phone. Is there another way?",
     strL "I clicked the link but nothing happened. What should I do?"]
  else if containsSub (strL "otp") ml || containsSub (strL "code") ml then
    [strL "I received a code but it's not clear. Should I share all the digits?",
     strL "The OTP is 6 digits, right? Should I tell you the whole thing?",
     strL "I got the code. Do you need me to read it out to you?"]
  else if containsSub (strL "payment") ml || containsSub (strL "money") ml ||
      containsSub (strL "send") ml || containsSub (strL "transfer") ml then
    [strL "How much should I send? And to which account or UPI?",
     strL "What amount exactly? And will I get it back?",
     strL "Should I use UPI or bank transfer? What's the account details?"]
  else if containsSub (strL "install") ml || containsSub (strL "download") ml then
    [strL "What app should I download? Can you give me the exact name?",
     strL "Is this app available on Play Store? What's it called?",
     strL "Should I download it from the link you sent or from the app store?"]
  else if containsSub (strL "call") ml || containsSub (strL "contact") ml ||
      containsSub (strL "phone") ml then
    [strL "What number should I call? And what should I say?",
     strL "Should I call you right now? What's your number?",
     strL "I can call, but what extension or department should I ask for?"]
  else if containsSub (strL "card") ml || containsSub (strL "cvv") ml ||
      containsSub (strL "debit") ml || containsSub (strL "credit") ml then
    [strL "Which card - my debit card or credit card?",
     strL "You need the card number? All 16 digits?",
     strL "Should I also share the expiry date and CVV?"]
  else if containsSub (strL "kyc") ml || containsSub (strL "document") ml ||
      containsSub (strL "aadhar") ml || containsSub (strL "pan") ml then
    [strL "What documents do you need? I have Aadhar and PAN card.",
     strL "Should I upload the documents somewhere? Where?",
     strL "Do you need photos of my documents or just the numbers?"]
  else
    [strL "Can you please provide more details? I want to do this correctly.",
     strL "I'm not sure I understand. Can you explain step by step?",
     strL "What exactly do you need from me to resolve this?",
     strL "I want to help but need clearer instructions. What's the next step?"]

/-- `_generate_hesitant_response`: fixed stalling pool. -/
def hesitantResponses : List Str :=
  [strL "I'm a bit confused. Can you confirm you're from the official bank?",
   strL "My friend said to be careful with such messages. But this is real, right?",
   strL "Before I proceed, can you give me your employee ID or official number?",
   strL "I want to help but I need to verify this is legitimate. What's your department?",
   strL "Okay, but can I call my bank first to confirm this?",
   strL "This seems urgent but I want to be sure. What happens if I don't do this now?"]

/-- `_generate_final_response`: fixed disengagement pool. -/
def finalResponses : List Str :=
  [strL "I'm going to check with my bank branch directly. Thank you for informing me.",
   strL "I think I should visit the bank in person for this. Thanks anyway.",
   strL "My son said this might be a scam. I'll verify with the bank first.",
   strL "I'm not comfortable sharing this information online. I'll go to the bank.",
   strL "Let me consult with someone before proceeding. I'll get back to you.",
   strL "I received a call from my bank saying this is fake. I'm reporting this."]

/-- `random.choice`, modelled by an injected index reduced modulo the pool
size. -/
def pyChoice (r : ℕ) (pool : List Str) : Str := pool.getD (r % pool.length) []

theorem pyChoice_mem {pool : List Str} (r : ℕ) (h : pool ≠ []) :
    pyChoice r pool ∈ pool := by
  rw [pyChoice]
  have hlen : r % pool.length < pool.length :=
    Nat.mod_lt _ (List.length_pos.mpr h)
  rw [List.getD_eq_getElem _ _ hlen]
  exact List.getElem_mem hlen

/-- `HoneypotAgent.generate_response`, at the session level: stage by
`engagement_count` (0 initial, 1-2 probing, 3-5 hesitant, ≥6 final); the
final stage flips `should_continue` to false.  The persona and the
conversation context are computed but unused, as in the source. -/
def generateResponseS (s : Session) (history : List Message) (current : Str)
    (scam_type : Option ScamType) (rand : ℕ) : Str × Session :=
  let _persona := personaKey scam_type s.engagement_count
  let _context := buildContext history current
  if s.engagement_count = 0 then
    (pyChoice rand (initialResponses scam_type), s)
  else if s.engagement_count < 3 then
    (pyChoice rand (probingResponses current), s)
  else if s.engagement_count < 6 then
    (pyChoice rand hesitantResponses, s)
  else
    (pyChoice rand finalResponses, { s with should_continue := false })

/-- C3: the strategist selects the reply pool purely by `engagementCount`
(0 → initial pool, 1-2 → probing pool, 3-5 → hesitant pool, ≥6 → final
pool), leaves the session untouched in the first three stages, and sets
`shouldContinue := false` exactly when the final pool is selected. -/
theorem claim_C3_strategist_stages (s : Session) (history : List Message)
    (current : Str) (scam_type : Option ScamType) (rand : ℕ) :
    (s.engagement_count = 0 →
      (generateResponseS s history current scam_type rand).1 ∈ initialResponses scam_type ∧
      (generateResponseS s history current scam_type rand).2 = s) ∧
    (1 ≤ s.engagement_count → s.engagement_count ≤ 2 →
      (generateResponseS s history current scam_type rand).1 ∈ probingResponses current ∧
      (generateResponseS s history current scam_type rand).2 = s) ∧
    (3 ≤ s.engagement_count → s.engagement_count ≤ 5 →
      (generateResponseS s history current scam_type rand).1 ∈ hesitantResponses ∧
      (generateResponseS s history current scam_type rand).2 = s) ∧
    (6 ≤ s.engagement_count →
      (generateResponseS s history current scam_type rand).1 ∈ finalResponses ∧
      (generateResponseS s history current scam_type rand).2 =
        { s with should_continue := false }) := by
  have hinit : initialResponses scam_type ≠ [] := by
    rw [initialResponses.eq_def]
    cases scam_type with
    | none => simp [initialResponsesFor]
    | some c => cases c <;> simp [initialResponsesFor]
  have hprob : probingResponses current ≠ [] := by
    rw [probingResponses]
    split_ifs <;> simp
  refine ⟨fun h0 => ?_, fun h1 h2 => ?_, fun h3 h5 => ?_, fun h6 => ?_⟩
  · rw [generateResponseS, if_pos h0]
    exact ⟨pyChoice_mem rand hinit, rfl⟩
  · rw [generateResponseS, if_neg (by omega), if_pos (by omega)]
    exact ⟨pyChoice_mem rand hprob, rfl⟩
  · rw [generateResponseS, if_neg (by omega), if_neg (by omega), if_pos (by omega)]
    exact ⟨pyChoice_mem rand (by simp [hesitantResponses]), rfl⟩
  · rw [generateResponseS, if_neg (by omega), if_neg (by omega), if_neg (by omega)]
    exact ⟨pyChoice_mem rand (by simp [finalResponses]), rfl⟩

/-- Witness for C3 at concrete sessions in each stage. -/
theorem claim_C3_strategist_stages_witness :
    ((generateResponseS freshSession [] [] (some ScamType.bank_fraud) 0).1 ∈
        initialResponses (some ScamType.bank_fraud) ∧
      (generateResponseS { freshSession with engagement_count := 1 } [] []
        (some ScamType.bank_fraud) 0).1 ∈ probingResponses [] ∧
      (generateResponseS { freshSession with engagement_count := 3 } [] []
        (some ScamType.bank_fraud) 0).1 ∈ hesitantResponses) ∧
      (generateResponseS { freshSession with engagement_count := 6 } [] []
        (some ScamType.bank_fraud) 0).1 ∈ finalResponses ∧
      (generateResponseS { freshSession with engagement_count := 6 } [] []
        (some ScamType.bank_fraud) 0).2.should_continue = false := by
  have h0 := (claim_C3_strategist_stages freshSession [] []
    (some ScamType.bank_fraud) 0).1 (by decide)
  have h1 := (claim_C3_strategist_stages { freshSession with engagement_count := 1 }
    [] [] (some ScamType.bank_fraud) 0).2.1 (by decide) (by decide)
  have h3 := (claim_C3_strategist_stages { freshSession with engagement_count := 3 }
    [] [] (some ScamType.bank_fraud) 0).2.2.1 (by decide) (by decide)
  have h6 := (claim_C3_strategist_stages { freshSession with engagement_count := 6 }
    [] [] (some ScamType.bank_fraud) 0).2.2.2 (by decide)
  exact ⟨⟨h0.1, h1.1, h3.1⟩, h6.1, by rw [h6.2]⟩

/-! ## Reporting call (`send_final_result`) -/

/-- Python `str()` of the stored scam-type value (`None` before
detection). -/
def scamTypeName : Option ScamType → Str
  | none => strL "None"
  | some ScamType.bank_fraud => strL "bank_fraud"
  | some ScamType.upi_fraud => strL "upi_fraud"
  | some ScamType.phishing => strL "phishing"
  | some ScamType.fake_offers => strL "fake_offers"
  | some ScamType.impersonation => strL "impersonation"
  | some ScamType.otp_fraud => strL "otp_fraud"
  | some ScamType.generic_scam => strL "generic_scam"

/-- Decimal rendering of a natural number, for the f-string. -/
def natStr (n : ℕ) : Str := (Nat.repr n).data

/-- The JSON payload built by `send_final_result` (lines 615-627); the
`extractedIntelligence` object is a key-value list in construction order. -/
structure FinalResultPayload where
  sessionId : Str
  scamDetected : Bool
  totalMessagesExchanged : ℕ
  extractedIntelligence : List (Str × List Str)
  agentNotes : Str
deriving DecidableEq, Repr

/-- The `agentNotes` f-string (line 626). -/
def mkAgentNotes (s : Session) : Str :=
  strL "Scam type: " ++ scamTypeName s.scam_type ++
  strL ". Agent engaged scammer through " ++ natStr s.engagement_count ++
  strL " turns using adaptive conversation strategies. Successfully extracted " ++
  natStr s.intelligence.bankAccounts.length ++ strL " bank accounts, " ++
  natStr s.intelligence.upiIds.length ++ strL " UPI IDs, " ++
  natStr s.intelligence.phishingLinks.length ++ strL " phishing links, and " ++
  natStr s.intelligence.phoneNumbers.length ++ strL " phone numbers."

/-- The payload sent to the reporting collaborator: note that ALL FIVE
intelligence lists are included, `suspiciousKeywords` among them
(lines 619-625). -/
def mkFinalPayload (session_id : Str) (s : Session) : FinalResultPayload :=
  { sessionId := session_id
    scamDetected := s.scam_detected
    totalMessagesExchanged := s.messages.length
    extractedIntelligence :=
      [(strL "bankAccounts", s.intelligence.bankAccounts),
       (strL "upiIds", s.intelligence.upiIds),
       (strL "phishingLinks", s.intelligence.phishingLinks),
       (strL "phoneNumbers", s.intelligence.phoneNumbers),
       (strL "suspiciousKeywords", s.intelligence.suspiciousKeywords)]
    agentNotes := mkAgentNotes s }

/-- `response.status_code in [200, 201]`. -/
def okStatus (n : ℕ) : Bool := n = 200 || n = 201

/-- `send_final_result` at the session level.  The outbound POST is
modelled by the injected `statuses` oracle giving the status code of each
attempt (timeouts and request exceptions count as non-2xx).  Returns the
updated session and the payload that was POSTed (`none` when the
duplicate-suppression guard fires and no POST happens).  The retry loop
stops at the first 200/201, which is when (and only when)
`final_result_sent` is set; after three failures the flag stays unset. -/
def sendFinalResultS (s : Session) (session_id : Str) (statuses : ℕ → ℕ) :
    Session × Option FinalResultPayload :=
  if s.final_result_sent then (s, none)
  else
    let payload := mkFinalPayload session_id s
    if okStatus (statuses 0) || okStatus (statuses 1) || okStatus (statuses 2) then
      ({ s with final_result_sent := true }, some payload)
    else (s, some payload)

/-- C1 is false on the code: the payload's `extractedIntelligence`
contains five lists, `suspiciousKeywords` included, already for a fresh
session. -/
theorem claim_C1_counterexample :
    (mkFinalPayload (strL "session-1") freshSession).extractedIntelligence.map
        Prod.fst =
      [strL "bankAccounts", strL "upiIds", strL "phishingLinks",
       strL "phoneNumbers", strL "suspiciousKeywords"] := by
  decide

/-- C1 amended: whenever a report is actually sent (duplicate guard not
yet set), the POSTed payload carries exactly FIVE intelligence lists — the
four of the claim plus `suspiciousKeywords`, which is NOT excluded. -/
theorem claim_C1_report_five_lists (s : Session) (session_id : Str)
    (statuses : ℕ → ℕ) (h : s.final_result_sent = false) :
    (sendFinalResultS s session_id statuses).2 = some (mkFinalPayload session_id s) ∧
      (mkFinalPayload session_id s).extractedIntelligence =
        [(strL "bankAccounts", s.intelligence.bankAccounts),
         (strL "upiIds", s.intelligence.upiIds),
         (strL "phishingLinks", s.intelligence.phishingLinks),
         (strL "phoneNumbers", s.intelligence.phoneNumbers),
         (strL "suspiciousKeywords", s.intelligence.suspiciousKeywords)] := by
  refine ⟨?_, rfl⟩
  rw [sendFinalResultS, if_neg (by simp [h])]
  split <;> rfl

/-- Witness for the amended C1 at a fresh session. -/
theorem claim_C1_report_five_lists_witness :
    (sendFinalResultS freshSession (strL "session-1") (fun _ => 200)).2 =
      some (mkFinalPayload (strL "session-1") freshSession) := by
  exact (claim_C1_report_five_lists freshSession (strL "session-1")
    (fun _ => 200) (by decide)).1

/-- C10: `final_result_sent` is set exactly when one of the three POST
attempts returns 200/201; if all three fail the flag stays unset (so
duplicate suppression only covers delivered reports); and a call made with
the flag already set returns immediately — no POST and no change to any
session field. -/
theorem claim_C10_flag_on_delivery (s : Session) (session_id : Str)
    (statuses : ℕ → ℕ) :
    (s.final_result_sent = true →
      sendFinalResultS s session_id statuses = (s, none)) ∧
    (s.final_result_sent = false →
      (sendFinalResultS s session_id statuses).2 =
          some (mkFinalPayload session_id s) ∧
        (sendFinalResultS s session_id statuses).1 =
          { s with final_result_sent :=
              okStatus (statuses 0) || okStatus (statuses 1) || okStatus (statuses 2) }) := by
  constructor
  · intro h
    rw [sendFinalResultS, if_pos (by simp [h])]
  · intro h
    rw [sendFinalResultS, if_neg (by simp [h])]
    constructor
    · split <;> rfl
    · split
      next hc => simp [hc]
      next hc =>
        have : (okStatus (statuses 0) || okStatus (statuses 1) || okStatus (statuses 2))
            = false := by simpa using hc
        rw [this]
        cases s
        simp_all

/-- Witness for C10 in both branches: a session with the flag set is
untouched, and three failing attempts leave the flag unset. -/
theorem claim_C10_flag_on_delivery_witness :
    (sendFinalResultS { freshSession with final_result_sent := true }
        (strL "s") (fun _ => 500) =
      ({ freshSession with final_result_sent := true }, none)) ∧
    (sendFinalResultS freshSession (strL "s") (fun _ => 500)).1.final_result_sent
      = false := by
  constructor
  · exact (claim_C10_flag_on_delivery
      { freshSession with final_result_sent := true } (strL "s") (fun _ => 500)).1 rfl
  · have h := ((claim_C10_flag_on_delivery freshSession (strL "s")
      (fun _ => 500)).2 rfl).2
    rw [h]
    decide

/-! ## Session store and API endpoints -/

/-- The `session_manager.sessions` dict, as an association list. -/
abbrev Store := List (Str × Session)

def getStored : Store → Str → Option Session
  | [], _ => none
  | (k, s) :: rest, sid => if k = sid then some s else getStored rest sid

/-- Dict write: replace the binding if present, else append. -/
def setStored : Store → Str → Session → Store
  | [], sid, s => [(sid, s)]
  | (k, s0) :: rest, sid, s =>
    if k = sid then (sid, s) :: rest else (k, s0) :: setStored rest sid s

theorem getStored_setStored_same : ∀ (st : Store) (sid : Str) (s : Session),
    getStored (setStored st sid s) sid = some s := by
  intro st
  induction st with
  | nil => intro sid s; simp [setStored, getStored]
  | cons kv rest ih =>
    intro sid s
    obtain ⟨k, s0⟩ := kv
    rw [setStored]
    by_cases hk : k = sid
    · rw [if_pos hk, getStored, if_pos rfl]
    · rw [if_neg hk, getStored, if_neg hk]
      exact ih sid s

/-- The body returned by `get_session_status` (lines 514-528): counts, not
contents. -/
structure SessionStatus where
  sessionId : Str
  scamDetected : Bool
  scamType : Option ScamType
  engagementCount : ℕ
  totalMessages : ℕ
  shouldContinue : Bool
  bankAccountCount : ℕ
  upiIdCount : ℕ
  phishingLinkCount : ℕ
  phoneNumberCount : ℕ
  suspiciousKeywordCount : ℕ
deriving DecidableEq, Repr

/-- `get_session_status`: reads `session_manager.sessions` directly (it
does NOT call `get_session`, so no session is created); a missing id is a
404 (`none`); the store is returned unchanged. -/
def getSessionStatus (st : Store) (session_id : Str) :
    Store × Option SessionStatus :=
  match getStored st session_id with
  | none => (st, none)
  | some s =>
    (st, some
      { sessionId := session_id
        scamDetected := s.scam_detected
        scamType := s.scam_type
        engagementCount := s.engagement_count
        totalMessages := s.messages.length
        shouldContinue := s.should_continue
        bankAccountCount := s.intelligence.bankAccounts.length
        upiIdCount := s.intelligence.upiIds.length
        phishingLinkCount := s.intelligence.phishingLinks.length
        phoneNumberCount := s.intelligence.phoneNumbers.length
        suspiciousKeywordCount := s.intelligence.suspiciousKeywords.length })

/-- The neutral reply of the non-engagement branch (line 595). -/
def neutralReply : Str := strL "Thank you for your message. Have a nice day!"

/-- The per-message pipeline of `detect_and_engage`, at the session level
(the handler mutates one session dict in place; here the evolving session
value is threaded).  Returns the final session, the reply, whether the
strategist branch ran, and the payload POSTed by `send_final_result`
(`none` when no POST happened). -/
def handleSession (s0 : Session) (msg : Message) (history : List Message)
    (rand : ℕ) (now : ℤ) (session_id : Str) (statuses : ℕ → ℕ) :
    Session × Str × Bool × Option FinalResultPayload :=
  let s1 := { s0 with messages := s0.messages ++ [msg] }
  let s2 := updateIntelligence s1 msg.text
  let det := detect msg.text
  let s3 :=
    if det.1 && !s2.scam_detected then
      { s2 with scam_detected := true, scam_type := det.2 }
    else s2
  if s3.scam_detected && s3.should_continue then
    let gr := generateResponseS s3 history msg.text s3.scam_type rand
    let s5 := { gr.2 with
      engagement_count := gr.2.engagement_count + 1
      messages := gr.2.messages ++
        [{ sender := strL "user", text := gr.1, timestamp := now }] }
    if 7 ≤ s5.engagement_count || !s5.should_continue then
      let sr := sendFinalResultS s5 session_id statuses
      (sr.1, gr.1, true, sr.2)
    else (s5, gr.1, true, none)
  else (s3, neutralReply, false, none)

/-- The result of one `/detect` call. -/
structure HandleResult where
  store : Store
  reply : Str
  engaged : Bool
  report : Option FinalResultPayload
deriving DecidableEq, Repr

/-- `detect_and_engage`: fetch-or-create the session, run the per-message
pipeline, write the session back. -/
def detectAndEngage (st : Store) (session_id : Str) (msg : Message)
    (history : List Message) (rand : ℕ) (now : ℤ) (statuses : ℕ → ℕ) :
    HandleResult :=
  let r := handleSession ((getStored st session_id).getD freshSession) msg
    history rand now session_id statuses
  { store := setStored st session_id r.1
    reply := r.2.1
    engaged := r.2.2.1
    report := r.2.2.2 }

/-- C9: session introspection does not modify the store (in particular it
creates no session), fails with not-found exactly when the id is absent,
and on a known id reports the session's counts and flags. -/
theorem claim_C9_introspection (st : Store) (session_id : Str) :
    (getSessionStatus st session_id).1 = st ∧
    ((getSessionStatus st session_id).2 = none ↔ getStored st session_id = none) ∧
    (∀ s, getStored st session_id = some s →
      (getSessionStatus st session_id).2 = some
        { sessionId := session_id
          scamDetected := s.scam_detected
          scamType := s.scam_type
          engagementCount := s.engagement_count
          totalMessages := s.messages.length
          shouldContinue := s.should_continue
          bankAccountCount := s.intelligence.bankAccounts.length
          upiIdCount := s.intelligence.upiIds.length
          phishingLinkCount := s.intelligence.phishingLinks.length
          phoneNumberCount := s.intelligence.phoneNumbers.length
          suspiciousKeywordCount := s.intelligence.suspiciousKeywords.length }) := by
  cases h : getStored st session_id with
  | none =>
    refine ⟨?_, ?_, ?_⟩
    · rw [getSessionStatus, h]
    · rw [getSessionStatus, h]
      simp
    · intro s hs
      exact absurd hs (by simp)
  | some s0 =>
    refine ⟨?_, ?_, ?_⟩
    · rw [getSessionStatus, h]
    · rw [getSessionStatus, h]
      simp
    · intro s hs
      simp only [Option.some.injEq] at hs
      subst hs
      rw [getSessionStatus, h]

/-- Witness for C9: a missing id 404s without touching the store; a
present id reports the counts. -/
theorem claim_C9_introspection_witness :
    (getSessionStatus [] (strL "absent")).2 = none ∧
    (getSessionStatus [(strL "s", freshSession)] (strL "s")).2 =
      some
        { sessionId := strL "s"
          scamDetected := false
          scamType := none
          engagementCount := 0
          totalMessages := 0
          shouldContinue := true
          bankAccountCount := 0
          upiIdCount := 0
          phishingLinkCount := 0
          phoneNumberCount := 0
          suspiciousKeywordCount := 0 } := by
  constructor
  · exact ((claim_C9_introspection [] (strL "absent")).2.1).mpr rfl
  · exact (claim_C9_introspection [(strL "s", freshSession)] (strL "s")).2.2
      freshSession (by decide)

/-! ### Step characterization of the handler -/

theorem updateIntelligence_scam_detected (s : Session) (t : Str) :
    (updateIntelligence s t).scam_detected = s.scam_detected := rfl

theorem updateIntelligence_scam_type (s : Session) (t : Str) :
    (updateIntelligence s t).scam_type = s.scam_type := rfl

theorem updateIntelligence_should_continue (s : Session) (t : Str) :
    (updateIntelligence s t).should_continue = s.should_continue := rfl

theorem updateIntelligence_engagement_count (s : Session) (t : Str) :
    (updateIntelligence s t).engagement_count = s.engagement_count := rfl

theorem updateIntelligence_final_result_sent (s : Session) (t : Str) :
    (updateIntelligence s t).final_result_sent = s.final_result_sent := rfl

theorem updateIntelligence_messages (s : Session) (t : Str) :
    (updateIntelligence s t).messages = s.messages := rfl

/-- Below stage 6 the strategist leaves the session unchanged. -/
theorem generateResponseS_nonfinal (s : Session) (history : List Message)
    (current : Str) (ty : Option ScamType) (r : ℕ)
    (h : s.engagement_count < 6) :
    (generateResponseS s history current ty r).2 = s := by
  simp only [generateResponseS]
  by_cases h0 : s.engagement_count = 0
  · rw [if_pos h0]
  · rw [if_neg h0]
    by_cases h3 : s.engagement_count < 3
    · rw [if_pos h3]
    · rw [if_neg h3, if_pos h]

/-- At stage 6+ the strategist only flips `should_continue`. -/
theorem generateResponseS_final (s : Session) (history : List Message)
    (current : Str) (ty : Option ScamType) (r : ℕ)
    (h : 6 ≤ s.engagement_count) :
    (generateResponseS s history current ty r).2 =
      { s with should_continue := false } := by
  simp only [generateResponseS]
  rw [if_neg (by omega), if_neg (by omega), if_neg (by omega)]

/-- An already-detected, still-engaging session below stage 6: the handler
engages, sends nothing, bumps the count by one and preserves the flags and
the category. -/
theorem handle_mid (s0 : Session) (msg : Message) (history : List Message)
    (rand : ℕ) (now : ℤ) (sid : Str) (stats : ℕ → ℕ)
    (hd : s0.scam_detected = true) (hc : s0.should_continue = true)
    (he : s0.engagement_count < 6) :
    (handleSession s0 msg history rand now sid stats).2.2.1 = true ∧
    (handleSession s0 msg history rand now sid stats).2.2.2 = none ∧
    (handleSession s0 msg history rand now sid stats).1.scam_detected = true ∧
    (handleSession s0 msg history rand now sid stats).1.should_continue = true ∧
    (handleSession s0 msg history rand now sid stats).1.engagement_count =
      s0.engagement_count + 1 ∧
    (handleSession s0 msg history rand now sid stats).1.final_result_sent =
      s0.final_result_sent ∧
    (handleSession s0 msg history rand now sid stats).1.scam_type = s0.scam_type := by
  simp only [handleSession]
  set s2 := updateIntelligence { s0 with messages := s0.messages ++ [msg] } msg.text
    with hs2
  have h2d : s2.scam_detected = true := hd
  have h2c : s2.should_continue = true := hc
  have h2e : s2.engagement_count = s0.engagement_count := rfl
  have hgr : (generateResponseS s2 history msg.text s2.scam_type rand).2 = s2 :=
    generateResponseS_nonfinal _ _ _ _ _ (by rw [h2e]; exact he)
  split
  next hA => rw [h2d] at hA; simp at hA
  next hA =>
    split
    next hB =>
      rw [hgr]
      split
      next hC =>
        exfalso
        simp only [Bool.or_eq_true, decide_eq_true_eq, Bool.not_eq_true'] at hC
        rcases hC with h7 | hsc
        · rw [h2e] at h7; omega
        · rw [h2c] at hsc; exact absurd hsc (by simp)
      next hC => exact ⟨rfl, rfl, h2d, h2c, rfl, rfl, rfl⟩
    next hB => rw [h2d, h2c] at hB; simp at hB

/-- A fresh or not-yet-detected engaging session receiving a message the
classifier flags: the category is latched and the handler engages. -/
theorem handle_first (s0 : Session) (msg : Message) (history : List Message)
    (rand : ℕ) (now : ℤ) (sid : Str) (stats : ℕ → ℕ)
    (hd : s0.scam_detected = false) (hc : s0.should_continue = true)
    (he : s0.engagement_count < 6) (hscam : (detect msg.text).1 = true) :
    (handleSession s0 msg history rand now sid stats).2.2.1 = true ∧
    (handleSession s0 msg history rand now sid stats).2.2.2 = none ∧
    (handleSession s0 msg history rand now sid stats).1.scam_detected = true ∧
    (handleSession s0 msg history rand now sid stats).1.should_continue = true ∧
    (handleSession s0 msg history rand now sid stats).1.engagement_count =
      s0.engagement_count + 1 ∧
    (handleSession s0 msg history rand now sid stats).1.final_result_sent =
      s0.final_result_sent ∧
    (handleSession s0 msg history rand now sid stats).1.scam_type =
      (detect msg.text).2 := by
  simp only [handleSession]
  set s2 := updateIntelligence { s0 with messages := s0.messages ++ [msg] } msg.text
    with hs2
  have h2d : s2.scam_detected = false := hd
  have h2c : s2.should_continue = true := hc
  have h2e : s2.engagement_count = s0.engagement_count := rfl
  have hgr : ∀ ty, (generateResponseS
      { s2 with scam_detected := true, scam_type := (detect msg.text).2 }
      history msg.text ty rand).2 =
      { s2 with scam_detected := true, scam_type := (detect msg.text).2 } :=
    fun ty => generateResponseS_nonfinal _ _ _ _ _ (by
      show s2.engagement_count < 6
      rw [h2e]; exact he)
  split
  next hA =>
    split
    next hB =>
      rw [hgr]
      split
      next hC =>
        exfalso
        simp only [Bool.or_eq_true, decide_eq_true_eq, Bool.not_eq_true'] at hC
        rcases hC with h7 | hsc
        · revert h7
          show ¬(7 ≤ s2.engagement_count + 1)
          rw [h2e]; omega
        · revert hsc
          show ¬(s2.should_continue = false)
          rw [h2c]; simp
      next hC => exact ⟨rfl, rfl, rfl, h2c, rfl, rfl, rfl⟩
    next hB =>
      exfalso
      apply hB
      show (true && s2.should_continue) = true
      rw [h2c]
      rfl
  next hA => rw [h2d, hscam] at hA; simp at hA

/-- A detected, engaging session at stage 6 (the seventh reply): the
strategist disengages, the count reaches 7, and — the duplicate guard being
unset — the reporting POST happens. -/
theorem handle_seventh (s0 : Session) (msg : Message) (history : List Message)
    (rand : ℕ) (now : ℤ) (sid : Str) (stats : ℕ → ℕ)
    (hd : s0.scam_detected = true) (hc : s0.should_continue = true)
    (he : s0.engagement_count = 6) (hf : s0.final_result_sent = false) :
    (handleSession s0 msg history rand now sid stats).2.2.1 = true ∧
    Option.isSome (handleSession s0 msg history rand now sid stats).2.2.2 = true ∧
    (handleSession s0 msg history rand now sid stats).1.scam_detected = true ∧
    (handleSession s0 msg history rand now sid stats).1.should_continue = false := by
  simp only [handleSession]
  set s2 := updateIntelligence { s0 with messages := s0.messages ++ [msg] } msg.text
    with hs2
  have h2d : s2.scam_detected = true := hd
  have h2c : s2.should_continue = true := hc
  have h2e : s2.engagement_count = 6 := he
  have h2f : s2.final_result_sent = false := hf
  have hgr : (generateResponseS s2 history msg.text s2.scam_type rand).2
      = { s2 with should_continue := false } :=
    generateResponseS_final _ _ _ _ _ (by rw [h2e])
  split
  next hA => rw [h2d] at hA; simp at hA
  next hA =>
    split
    next hB =>
      rw [hgr]
      split
      next hC =>
        refine ⟨rfl, ?_, ?_, ?_⟩
        · rw [sendFinalResultS, if_neg (by simpa using h2f)]
          split
          · rfl
          · rfl
        · rw [sendFinalResultS, if_neg (by simpa using h2f)]
          split
          · exact h2d
          · exact h2d
        · rw [sendFinalResultS, if_neg (by simpa using h2f)]
          split
          · rfl
          · rfl
      next hC =>
        exfalso
        apply hC
        show (decide (7 ≤ s2.engagement_count + 1) ||
          !(false : Bool)) = true
        simp
    next hB => rw [h2d, h2c] at hB; simp at hB

/-- A detected session whose engagement has ended: the handler returns the
neutral reply, does not contact the collaborator, and preserves the
flags. -/
theorem handle_ended (s0 : Session) (msg : Message) (history : List Message)
    (rand : ℕ) (now : ℤ) (sid : Str) (stats : ℕ → ℕ)
    (hd : s0.scam_detected = true) (hc : s0.should_continue = false) :
    (handleSession s0 msg history rand now sid stats).2.2.1 = false ∧
    (handleSession s0 msg history rand now sid stats).2.2.2 = none ∧
    (handleSession s0 msg history rand now sid stats).2.1 = neutralReply ∧
    (handleSession s0 msg history rand now sid stats).1.scam_detected = true ∧
    (handleSession s0 msg history rand now sid stats).1.should_continue = false := by
  simp only [handleSession]
  set s2 := updateIntelligence { s0 with messages := s0.messages ++ [msg] } msg.text
    with hs2
  have h2d : s2.scam_detected = true := hd
  have h2c : s2.should_continue = false := hc
  split
  next hA => rw [h2d] at hA; simp at hA
  next hA =>
    split
    next hB => rw [h2c] at hB; simp at hB
    next hB => exact ⟨rfl, rfl, rfl, h2d, h2c⟩

/-- The strategist either leaves the session alone or only flips
`should_continue`. -/
theorem generateResponseS_sess (s : Session) (history : List Message)
    (current : Str) (ty : Option ScamType) (r : ℕ) :
    (generateResponseS s history current ty r).2 = s ∨
    (generateResponseS s history current ty r).2 =
      { s with should_continue := false } := by
  simp only [generateResponseS]
  by_cases h0 : s.engagement_count = 0
  · rw [if_pos h0]; exact Or.inl rfl
  · rw [if_neg h0]
    by_cases h3 : s.engagement_count < 3
    · rw [if_pos h3]; exact Or.inl rfl
    · rw [if_neg h3]
      by_cases h6 : s.engagement_count < 6
      · rw [if_pos h6]; exact Or.inl rfl
      · rw [if_neg h6]; exact Or.inr rfl

/-- The reporting call either leaves the session alone or only sets
`final_result_sent`. -/
theorem sendFinalResultS_sess (s : Session) (sid : Str) (stats : ℕ → ℕ) :
    (sendFinalResultS s sid stats).1 = s ∨
    (sendFinalResultS s sid stats).1 = { s with final_result_sent := true } := by
  rw [sendFinalResultS]
  split
  · exact Or.inl rfl
  · split
    · exact Or.inr rfl
    · exact Or.inl rfl

theorem sendFinalResultS_scam_type (s : Session) (sid : Str) (stats : ℕ → ℕ) :
    (sendFinalResultS s sid stats).1.scam_type = s.scam_type := by
  rcases sendFinalResultS_sess s sid stats with h | h <;> rw [h]

/-- Once a session is flagged, one handler call never changes its
category. -/
theorem handleSession_scam_type (s0 : Session) (msg : Message)
    (history : List Message) (rand : ℕ) (now : ℤ) (sid : Str) (stats : ℕ → ℕ)
    (hd : s0.scam_detected = true) :
    (handleSession s0 msg history rand now sid stats).1.scam_type =
      s0.scam_type := by
  simp only [handleSession]
  set s2 := updateIntelligence { s0 with messages := s0.messages ++ [msg] } msg.text
    with hs2
  have h2d : s2.scam_detected = true := hd
  have h2t : s2.scam_type = s0.scam_type := rfl
  split
  next hA => rw [h2d] at hA; simp at hA
  next hA =>
    split
    next hB =>
      rcases generateResponseS_sess s2 history msg.text s2.scam_type rand with hgr | hgr <;>
        rw [hgr] <;>
        · split
          next => rw [sendFinalResultS_scam_type]; exact h2t
          next => exact h2t
    next hB => exact h2t

/-- C8: once a session's `scamDetected` is true, handling any further
message leaves its `scamCategory` unchanged, whatever the classifier says
about the new message. -/
theorem claim_C8_category_latched (st : Store) (session_id : Str) (msg : Message)
    (history : List Message) (rand : ℕ) (now : ℤ) (statuses : ℕ → ℕ) (s : Session)
    (hs : getStored st session_id = some s) (hd : s.scam_detected = true) :
    (getStored (detectAndEngage st session_id msg history rand now statuses).store
        session_id).map Session.scam_type = some s.scam_type := by
  have hstep := handleSession_scam_type s msg history rand now session_id statuses hd
  simp only [detectAndEngage, hs, Option.getD_some]
  rw [getStored_setStored_same, Option.map_some', hstep]

/-- Witness for C8: a flagged bank-fraud session keeps its category when a
fake-offers message arrives next. -/
theorem claim_C8_category_latched_witness :
    (getStored
        (detectAndEngage
          [(strL "s", { freshSession with
              scam_detected := true, scam_type := some ScamType.bank_fraud })]
          (strL "s")
          { sender := strL "scammer",
            text := strL "Congratulations! You have won a lottery!",
            timestamp := 0 }
          [] 0 0 (fun _ => 200)).store
        (strL "s")).map Session.scam_type = some (some ScamType.bank_fraud) := by
  exact claim_C8_category_latched
    [(strL "s", { freshSession with
        scam_detected := true, scam_type := some ScamType.bank_fraud })]
    (strL "s")
    { sender := strL "scammer",
      text := strL "Congratulations! You have won a lottery!", timestamp := 0 }
    [] 0 0 (fun _ => 200)
    { freshSession with scam_detected := true, scam_type := some ScamType.bank_fraud }
    (by decide) rfl

/-! ### C2: the end-to-end seven-message run -/

/-- Iterated `/detect` calls on one session id (message, history, random
index, timestamp and POST statuses for call `n` come from the given
families); instrumentation for the end-to-end claim. -/
def runSteps (st : Store) (session_id : Str) (msgs : ℕ → Message)
    (hists : ℕ → List Message) (rands : ℕ → ℕ) (nows : ℕ → ℤ)
    (stats : ℕ → ℕ → ℕ) : ℕ → Store
  | 0 => st
  | n + 1 =>
    (detectAndEngage (runSteps st session_id msgs hists rands nows stats n)
      session_id (msgs n) (hists n) (rands n) (nows n) (stats n)).store

/-- The result of the `n`-th call (0-based) in the iterated run. -/
def stepResult (st : Store) (session_id : Str) (msgs : ℕ → Message)
    (hists : ℕ → List Message) (rands : ℕ → ℕ) (nows : ℕ → ℤ)
    (stats : ℕ → ℕ → ℕ) (n : ℕ) : HandleResult :=
  detectAndEngage (runSteps st session_id msgs hists rands nows stats n)
    session_id (msgs n) (hists n) (rands n) (nows n) (stats n)

/-- C2: starting from a fresh session, seven sequential scam-pattern
messages produce seven engaged agent replies; the reporting collaborator
is contacted exactly once, at the seventh call (where `engagementCount`
reaches 7); and the 8th and 9th messages (arbitrary) produce no engaged
reply and never a second collaborator contact. -/
theorem claim_C2_end_to_end (st : Store) (sid : Str) (msgs : ℕ → Message)
    (hists : ℕ → List Message) (rands : ℕ → ℕ) (nows : ℕ → ℤ)
    (stats : ℕ → ℕ → ℕ)
    (hfresh : getStored st sid = none)
    (hscam : ∀ i < 7, (detect (msgs i).text).1 = true) :
    (∀ i < 7, (stepResult st sid msgs hists rands nows stats i).engaged = true) ∧
    (∀ i < 6, (stepResult st sid msgs hists rands nows stats i).report = none) ∧
    Option.isSome (stepResult st sid msgs hists rands nows stats 6).report = true ∧
    (∀ i, 7 ≤ i → i ≤ 8 →
      (stepResult st sid msgs hists rands nows stats i).engaged = false ∧
      (stepResult st sid msgs hists rands nows stats i).report = none) := by
  have store_succ : ∀ n : ℕ,
      getStored (runSteps st sid msgs hists rands nows stats (n + 1)) sid =
        some (handleSession
          ((getStored (runSteps st sid msgs hists rands nows stats n) sid).getD
            freshSession)
          (msgs n) (hists n) (rands n) (nows n) sid (stats n)).1 := by
    intro n
    show getStored
      ((detectAndEngage (runSteps st sid msgs hists rands nows stats n) sid
        (msgs n) (hists n) (rands n) (nows n) (stats n)).store) sid = _
    simp only [detectAndEngage]
    exact getStored_setStored_same _ _ _
  have step_engaged : ∀ n : ℕ,
      (stepResult st sid msgs hists rands nows stats n).engaged =
        (handleSession
          ((getStored (runSteps st sid msgs hists rands nows stats n) sid).getD
            freshSession)
          (msgs n) (hists n) (rands n) (nows n) sid (stats n)).2.2.1 :=
    fun _ => rfl
  have step_report : ∀ n : ℕ,
      (stepResult st sid msgs hists rands nows stats n).report =
        (handleSession
          ((getStored (runSteps st sid msgs hists rands nows stats n) sid).getD
            freshSession)
          (msgs n) (hists n) (rands n) (nows n) sid (stats n)).2.2.2 :=
    fun _ => rfl
  have hR0 : getStored (runSteps st sid msgs hists rands nows stats 0) sid = none :=
    hfresh
  -- the engaging invariant: after calls 1..6 the session is flagged,
  -- continuing, with count = number of calls and the report unsent
  have key : ∀ i : ℕ, i ≤ 5 →
      ∃ s, getStored (runSteps st sid msgs hists rands nows stats (i + 1)) sid
          = some s ∧
        s.scam_detected = true ∧ s.should_continue = true ∧
        s.engagement_count = i + 1 ∧ s.final_result_sent = false := by
    intro i
    induction i with
    | zero =>
      intro _
      have h1 := handle_first freshSession (msgs 0) (hists 0) (rands 0) (nows 0)
        sid (stats 0) rfl rfl (by decide) (hscam 0 (by norm_num))
      refine ⟨(handleSession freshSession (msgs 0) (hists 0) (rands 0) (nows 0)
          sid (stats 0)).1, ?_, h1.2.2.1, h1.2.2.2.1, h1.2.2.2.2.1,
          h1.2.2.2.2.2.1⟩
      rw [store_succ 0, hR0]
      rfl
    | succ i ih =>
      intro hle
      obtain ⟨s, hst, hsd, hsc, hec, hfr⟩ := ih (by omega)
      have hm := handle_mid s (msgs (i + 1)) (hists (i + 1)) (rands (i + 1))
        (nows (i + 1)) sid (stats (i + 1)) hsd hsc (by omega)
      refine ⟨(handleSession s (msgs (i + 1)) (hists (i + 1)) (rands (i + 1))
          (nows (i + 1)) sid (stats (i + 1))).1, ?_, hm.2.2.1, hm.2.2.2.1,
          ?_, ?_⟩
      · rw [store_succ (i + 1), hst]
        rfl
      · rw [hm.2.2.2.2.1, hec]
      · rw [hm.2.2.2.2.2.1]
        exact hfr
  -- state after the seventh call: flagged, disengaged
  obtain ⟨s6, hst6, hsd6, hsc6, hec6, hfr6⟩ := key 5 le_rfl
  have h7 := handle_seventh s6 (msgs 6) (hists 6) (rands 6) (nows 6) sid (stats 6)
    hsd6 hsc6 hec6 hfr6
  have hst7s : getStored (runSteps st sid msgs hists rands nows stats 7) sid =
      some (handleSession s6 (msgs 6) (hists 6) (rands 6) (nows 6) sid
        (stats 6)).1 := by
    rw [store_succ 6, hst6]
    rfl
  have h8 := handle_ended
    (handleSession s6 (msgs 6) (hists 6) (rands 6) (nows 6) sid (stats 6)).1
    (msgs 7) (hists 7) (rands 7) (nows 7) sid (stats 7) h7.2.2.1 h7.2.2.2
  have hst8s : getStored (runSteps st sid msgs hists rands nows stats 8) sid =
      some (handleSession
        (handleSession s6 (msgs 6) (hists 6) (rands 6) (nows 6) sid (stats 6)).1
        (msgs 7) (hists 7) (rands 7) (nows 7) sid (stats 7)).1 := by
    rw [store_succ 7, hst7s]
    rfl
  have h9 := handle_ended
    (handleSession
      (handleSession s6 (msgs 6) (hists 6) (rands 6) (nows 6) sid (stats 6)).1
      (msgs 7) (hists 7) (rands 7) (nows 7) sid (stats 7)).1
    (msgs 8) (hists 8) (rands 8) (nows 8) sid (stats 8) h8.2.2.2.1 h8.2.2.2.2
  refine ⟨?_, ?_, ?_, ?_⟩
  · -- seven engaged replies
    intro i hi
    rw [step_engaged i]
    interval_cases i
    · rw [hR0]
      exact (handle_first freshSession (msgs 0) (hists 0) (rands 0) (nows 0) sid
        (stats 0) rfl rfl (by decide) (hscam 0 (by norm_num))).1
    · obtain ⟨s, hst, hsd, hsc, hec, hfr⟩ := key 0 (by norm_num)
      rw [hst]
      exact (handle_mid s _ _ _ _ sid _ hsd hsc (by omega)).1
    · obtain ⟨s, hst, hsd, hsc, hec, hfr⟩ := key 1 (by norm_num)
      rw [hst]
      exact (handle_mid s _ _ _ _ sid _ hsd hsc (by omega)).1
    · obtain ⟨s, hst, hsd, hsc, hec, hfr⟩ := key 2 (by norm_num)
      rw [hst]
      exact (handle_mid s _ _ _ _ sid _ hsd hsc (by omega)).1
    · obtain ⟨s, hst, hsd, hsc, hec, hfr⟩ := key 3 (by norm_num)
      rw [hst]
      exact (handle_mid s _ _ _ _ sid _ hsd hsc (by omega)).1
    · obtain ⟨s, hst, hsd, hsc, hec, hfr⟩ := key 4 (by norm_num)
      rw [hst]
      exact (handle_mid s _ _ _ _ sid _ hsd hsc (by omega)).1
    · rw [hst6]
      exact h7.1
  · -- no report in the first six calls
    intro i hi
    rw [step_report i]
    interval_cases i
    · rw [hR0]
      exact (handle_first freshSession (msgs 0) (hists 0) (rands 0) (nows 0) sid
        (stats 0) rfl rfl (by decide) (hscam 0 (by norm_num))).2.1
    · obtain ⟨s, hst, hsd, hsc, hec, hfr⟩ := key 0 (by norm_num)
      rw [hst]
      exact (handle_mid s _ _ _ _ sid _ hsd hsc (by omega)).2.1
    · obtain ⟨s, hst, hsd, hsc, hec, hfr⟩ := key 1 (by norm_num)
      rw [hst]
      exact (handle_mid s _ _ _ _ sid _ hsd hsc (by omega)).2.1
    · obtain ⟨s, hst, hsd, hsc, hec, hfr⟩ := key 2 (by norm_num)
      rw [hst]
      exact (handle_mid s _ _ _ _ sid _ hsd hsc (by omega)).2.1
    · obtain ⟨s, hst, hsd, hsc, hec, hfr⟩ := key 3 (by norm_num)
      rw [hst]
      exact (handle_mid s _ _ _ _ sid _ hsd hsc (by omega)).2.1
    · obtain ⟨s, hst, hsd, hsc, hec, hfr⟩ := key 4 (by norm_num)
      rw [hst]
      exact (handle_mid s _ _ _ _ sid _ hsd hsc (by omega)).2.1
  · -- the seventh call contacts the collaborator
    rw [step_report 6, hst6]
    exact h7.2.1
  · -- the 8th and 9th messages: no engagement, no second contact
    intro i hi7 hi8
    interval_cases i
    · rw [step_engaged 7, step_report 7, hst7s]
      exact ⟨h8.1, h8.2.1⟩
    · rw [step_engaged 8, step_report 8, hst8s]
      exact ⟨h9.1, h9.2.1⟩

/-- Witness for C2: a concrete run of nine "share otp" messages against an
empty store. -/
theorem claim_C2_end_to_end_witness :
    (∀ i < 7, (stepResult [] (strL "s1")
        (fun _ => { sender := strL "scammer", text := strL "share otp",
                    timestamp := 0 })
        (fun _ => []) (fun _ => 0) (fun _ => 0) (fun _ _ => 200) i).engaged
        = true) ∧
    (∀ i < 6, (stepResult [] (strL "s1")
        (fun _ => { sender := strL "scammer", text := strL "share otp",
                    timestamp := 0 })
        (fun _ => []) (fun _ => 0) (fun _ => 0) (fun _ _ => 200) i).report
        = none) ∧
    Option.isSome ((stepResult [] (strL "s1")
        (fun _ => { sender := strL "scammer", text := strL "share otp",
                    timestamp := 0 })
        (fun _ => []) (fun _ => 0) (fun _ => 0) (fun _ _ => 200) 6).report)
        = true ∧
    (∀ i, 7 ≤ i → i ≤ 8 →
      (stepResult [] (strL "s1")
        (fun _ => { sender := strL "scammer", text := strL "share otp",
                    timestamp := 0 })
        (fun _ => []) (fun _ => 0) (fun _ => 0) (fun _ _ => 200) i).engaged
        = false ∧
      (stepResult [] (strL "s1")
        (fun _ => { sender := strL "scammer", text := strL "share otp",
                    timestamp := 0 })
        (fun _ => []) (fun _ => 0) (fun _ => 0) (fun _ _ => 200) i).report
        = none) :=
  claim_C2_end_to_end [] (strL "s1")
    (fun _ => { sender := strL "scammer", text := strL "share otp",
                timestamp := 0 })
    (fun _ => []) (fun _ => 0) (fun _ => 0) (fun _ _ => 200)
    rfl (by decide)

end Honeypot
